import Mathlib

/-!
# CalQLux photometric engine: verification of the specification claims

This file shallowly embeds the core calculation modules of the CalQLux
repository (`js/luminaire-library.js`, `js/calculations/index.js`,
`js/calculations/uniformity.js`, `js/calculations/advance-iesna.js` and the
coefficient-of-utilization module) and settles the frozen specification
claims against the embedded code.

Conventions of the embedding:
* JavaScript numbers are modelled as rationals (`ℚ`).  Where NaN / ±Infinity
  behaviour of IEEE doubles is itself the subject of a claim, the dedicated
  carrier `JSVal` (a rational together with `nan`, `inf`, `ninf`) is used and
  every arithmetic operation follows the JavaScript semantics.
* `Math.PI` is the exact rational value of the IEEE double `Math.PI`.
* `Math.sqrt` on finite non-negative arguments is kept as an explicit function
  parameter of the models (its value on non-perfect squares is irrational);
  `ratSqrt` below is a concrete instantiation that is exact on perfect
  rational squares, which is all the concrete witnesses evaluate it on.
* `Math.exp` (used only by the coefficient-of-utilization formulas) is
  modelled by `Real.exp`, so those models live over `ℝ`.
-/

/-- Exact rational value of the IEEE-754 double `Math.PI` used by JavaScript. -/
def piJS : ℚ := 884279719003555 / 281474976710656

/-- Exact rational value of `Number.MAX_VALUE` (`(2 - 2⁻⁵²)·2¹⁰²³`). -/
def jsMaxValue : ℚ := 2 ^ 1024 - 2 ^ 971

/-- `Math.round q` : round to nearest, halves toward `+∞` (JavaScript rule). -/
def jsRoundQ (q : ℚ) : ℤ := ⌊q + 1 / 2⌋

/-- `parseInt` applied to a numeric token: truncation toward zero. -/
def jsTrunc (q : ℚ) : ℤ := if 0 ≤ q then ⌊q⌋ else ⌈q⌉

/-- Feet→metres conversion factor used throughout `calculations/index.js`. -/
def ftFactor : ℚ := 3048 / 10000

/-- Unit normalization: `v * 0.3048` when the unit tag is `'ft'`. -/
def toMeters (v : ℚ) (isFt : Bool) : ℚ := if isFt then v * ftFactor else v

/-- A computable square root on `ℚ` that is exact on perfect rational
squares.  It instantiates the `Math.sqrt` parameter of the models in
concrete witnesses, all of which only evaluate square roots of perfect
squares (where the IEEE `Math.sqrt` is exact as well). -/
def ratSqrt (q : ℚ) : ℚ := (Nat.sqrt q.num.toNat : ℚ) / (Nat.sqrt q.den : ℚ)

theorem ratSqrt_sq {q : ℚ} (hq : 0 ≤ q) : ratSqrt (q * q) = q := by
  obtain ⟨a, ha⟩ : ∃ a : ℕ, q.num = (a : ℤ) :=
    ⟨q.num.toNat, (Int.toNat_of_nonneg (Rat.num_nonneg.mpr hq)).symm⟩
  unfold ratSqrt
  rw [Rat.mul_self_num q, Rat.mul_self_den q, ha]
  have h1 : ((a : ℤ) * (a : ℤ)).toNat = a * a := by
    rw [← Nat.cast_mul, Int.toNat_natCast]
  rw [h1, Nat.sqrt_eq, Nat.sqrt_eq]
  have h2 : ((a : ℕ) : ℚ) = ((q.num : ℤ) : ℚ) := by
    rw [ha]; push_cast; rfl
  rw [h2, Rat.num_div_den]

theorem ratSqrt_pos {q : ℚ} (hq : 0 < q) : 0 < ratSqrt q := by
  unfold ratSqrt
  have hnum : 0 < q.num := Rat.num_pos.mpr hq
  have h1 : 0 < Nat.sqrt q.num.toNat := by
    rw [Nat.sqrt_pos]
    omega
  have h2 : 0 < Nat.sqrt q.den := by
    rw [Nat.sqrt_pos]
    exact q.pos
  positivity

/-! ## IES parser (`IESParser.parsePhotometricData`, luminaire-library.js)

The photometric section of an IES file is modelled as a list of physical
lines, each line being the list of its numeric tokens (the JavaScript code
obtains these with `trim().split(/\s+/).filter(Boolean)` followed by
`parseFloat` / `parseInt`; malformed tokens are outside the scope of the
claims settled here).  The line cursor `lineIndex` is represented by the
list of still-unread lines. -/

/-- Errors the parser can raise: `lines[lineIndex++]` past the end of the
input is `undefined`, and `undefined.trim()` throws a `TypeError`. -/
inductive ParseErr where
  | typeError : ParseErr
deriving DecidableEq

/-- Parsed photometric record (`data` object built by
`parsePhotometricData`).  JavaScript first stores the horizontal-angle
*count* in `data.horizontalAngles` and later overwrites the same field with
the horizontal-angle *array*; the record holds the final (array) value and
the counts appear only as loop targets. -/
structure PhotoData where
  lampCount : ℤ
  lumensPerLamp : ℚ
  candleMultiplier : ℚ
  angleCount : ℤ
  photometricType : ℤ
  unitType : ℤ
  width : ℚ
  length : ℚ
  height : ℚ
  ballastFactor : ℚ
  ballastLampFactor : ℚ
  inputWatts : ℚ
  verticalAngles : List ℚ
  horizontalAngles : List ℚ
  candela : List (List ℚ)
deriving DecidableEq

/-- The token-accumulation `while` loop of `parsePhotometricData`:

```js
let acc = '';
while (arr.length < target) {
  acc += ' ' + lines[lineIndex++].trim();
  const vals = acc.trim().split(/\s+/).filter(Boolean).map(parseFloat);
  arr.push(...vals);
  if (arr.length >= target) break;
}
```

Note that the accumulated string `acc` is re-split on every iteration and
*all* of its tokens (including those of previously read lines) are pushed
again.  The model reproduces this exactly: `accLine` is the token list of
the accumulated string and the whole of it is appended to `arr` each
iteration.  Returns the filled array together with the unread lines. -/
def accumLoop (target : ℤ) :
    List (List ℚ) → List ℚ → List ℚ → Except ParseErr (List ℚ × List (List ℚ))
  | rest, accLine, arr =>
    if (arr.length : ℤ) < target then
      match rest with
      | [] => throw ParseErr.typeError
      | l :: rest' =>
        let accLine' := accLine ++ l
        accumLoop target rest' accLine' (arr ++ accLine')
    else
      pure (arr, rest)

/-- `ToNumber` coercion JavaScript applies to an array appearing in a `<`
comparison: the array is converted to its joined string and parsed; an empty
array yields `0`, a one-element array its element, anything longer `NaN`
(`none`). -/
def jsToNumber : List ℚ → Option ℚ
  | [] => some 0
  | [a] => some a
  | _ => none

/-- The candela-reading loop

```js
for (let h = 0; h < data.horizontalAngles; h++) { ... }
```

executed for a prescribed number of iterations (computed below from the
overwritten `data.horizontalAngles` field).  Each iteration runs the
token-accumulation loop for one row of `data.angleCount` candela values. -/
def candelaLoop (vCount : ℤ) :
    ℕ → List (List ℚ) → List (List ℚ) →
      Except ParseErr (List (List ℚ) × List (List ℚ))
  | 0, rest, acc => pure (acc, rest)
  | n + 1, rest, acc => do
    let (vSet, rest') ← accumLoop vCount rest [] []
    candelaLoop vCount n rest' (acc ++ [vSet])

/-- Number of iterations of `for (let h = 0; h < X; h++)` where `X` is the
result of coercing the (already overwritten) `data.horizontalAngles` field
to a number: `0` iterations when `X` is NaN, otherwise `max 0 ⌈X⌉`. -/
def candelaIterations (hAngles : List ℚ) : ℕ :=
  match jsToNumber hAngles with
  | none => 0
  | some x => (⌈x⌉).toNat

/-- `IESParser.parsePhotometricData` (luminaire-library.js, lines 522-612),
starting from the line the tilt parser left the cursor on.  Reads the lamp
line and the ballast line, then the vertical-angle array, the
horizontal-angle array and the candela matrix through the accumulation
loop.  The candela `for` loop's bound reads `data.horizontalAngles` *after*
that field has been overwritten with the horizontal-angle array, which is
why its iteration count comes from `candelaIterations`. -/
def parsePhotometricData (lines : List (List ℚ)) : Except ParseErr PhotoData := do
  match lines with
  | [] => throw ParseErr.typeError
  | lampLine :: rest1 =>
    match rest1 with
    | [] => throw ParseErr.typeError
    | ballastLine :: rest2 =>
      let angleCount : ℤ := jsTrunc (lampLine.getD 3 0)
      let horizontalCount : ℤ := jsTrunc (lampLine.getD 4 0)
      let (vAngles, rest3) ← accumLoop angleCount rest2 [] []
      let (hAngles, rest4) ← accumLoop horizontalCount rest3 [] []
      let (cand, _rest5) ← candelaLoop angleCount (candelaIterations hAngles) rest4 []
      pure {
        lampCount := jsTrunc (lampLine.getD 0 0)
        lumensPerLamp := lampLine.getD 1 0
        candleMultiplier := lampLine.getD 2 0
        angleCount := angleCount
        photometricType := jsTrunc (lampLine.getD 5 0)
        unitType := jsTrunc (lampLine.getD 6 0)
        width := lampLine.getD 7 0
        length := lampLine.getD 8 0
        height := lampLine.getD 9 0
        ballastFactor := ballastLine.getD 0 0
        ballastLampFactor := ballastLine.getD 1 1
        inputWatts := ballastLine.getD 2 0
        verticalAngles := vAngles
        horizontalAngles := hAngles
        candela := cand }

/-! ## Intensity interpolator (`IESParser.getIntensityAtAngle`,
luminaire-library.js lines 621-681) -/

/-- `while (horizontalAngle < 0) horizontalAngle += 360;` -/
def whileNeg (h : ℚ) : ℚ :=
  if hlt : h < 0 then whileNeg (h + 360) else h
termination_by (⌈-h / 360⌉).toNat
decreasing_by
  have hc : (0 : ℚ) < -h / 360 := div_pos (neg_pos.mpr hlt) (by norm_num)
  have h1 : 0 < ⌈-h / 360⌉ := Int.ceil_pos.mpr hc
  have h2 : ⌈-(h + 360) / 360⌉ = ⌈-h / 360⌉ - 1 := by
    rw [show -(h + 360) / 360 = -h / 360 - 1 by ring, Int.ceil_sub_one]
  omega

/-- `while (horizontalAngle >= 360) horizontalAngle -= 360;` -/
def whileBig (h : ℚ) : ℚ :=
  if hge : 360 ≤ h then whileBig (h - 360) else h
termination_by (⌊h / 360⌋).toNat
decreasing_by
  have h1 : (1 : ℤ) ≤ ⌊h / 360⌋ := by
    rw [Int.le_floor]
    rw [show ((1 : ℤ) : ℚ) = 1 by norm_num]
    rw [le_div_iff₀ (by norm_num : (0:ℚ) < 360)]
    linarith
  have h2 : ⌊(h - 360) / 360⌋ = ⌊h / 360⌋ - 1 := by
    rw [show (h - 360) / 360 = h / 360 - 1 by ring, Int.floor_sub_one]
  omega

/-- Horizontal-angle normalization into `[0, 360)` by repeated `±360`
adjustment, in the order the source performs it. -/
def normalizeH (h : ℚ) : ℚ := whileBig (whileNeg h)

/-- The bracket-search loop

```js
for (let i = 0; i < A.length - 1; i++) {
  if (q >= A[i] && q <= A[i+1]) { lower = i; upper = i + 1; break; }
}
```

returns the first index `i` whose interval `[A[i], A[i+1]]` contains `q`,
or `none` when no interval matches (including lists shorter than 2). -/
def findPair (q : ℚ) : List ℚ → Option ℕ
  | a :: b :: rest =>
    if a ≤ q ∧ q ≤ b then some 0 else (findPair q (b :: rest)).map (· + 1)
  | _ => none

/-- Bracketing index pair: the loop's result when it breaks, and the
initialization values `(0, length - 1)` when it never matches. -/
def bracket (angles : List ℚ) (q : ℚ) : ℕ × ℕ :=
  match findPair q angles with
  | some i => (i, i + 1)
  | none => (0, angles.length - 1)

/-- `IESParser.getIntensityAtAngle(photometricData, verticalAngle,
horizontalAngle)`: wrap-normalizes the horizontal angle, clamps the
vertical angle into `[0, 180]`, locates bracketing index pairs in both
angle arrays and bilinearly interpolates the four candela values with
zero-width intervals given weight `0`. -/
def getIntensityAtAngle (d : PhotoData) (verticalAngle horizontalAngle : ℚ) : ℚ :=
  let h := normalizeH horizontalAngle
  let v := max 0 (min 180 verticalAngle)
  let vb := bracket d.verticalAngles v
  let hb := bracket d.horizontalAngles h
  let i1 := (d.candela.getD hb.1 []).getD vb.1 0
  let i2 := (d.candela.getD hb.1 []).getD vb.2 0
  let i3 := (d.candela.getD hb.2 []).getD vb.1 0
  let i4 := (d.candela.getD hb.2 []).getD vb.2 0
  let vDelta := d.verticalAngles.getD vb.2 0 - d.verticalAngles.getD vb.1 0
  let hDelta := d.horizontalAngles.getD hb.2 0 - d.horizontalAngles.getD hb.1 0
  let vRatio := if vDelta > 0 then (v - d.verticalAngles.getD vb.1 0) / vDelta else 0
  let hRatio := if hDelta > 0 then (h - d.horizontalAngles.getD hb.1 0) / hDelta else 0
  i1 * (1 - hRatio) * (1 - vRatio) + i2 * (1 - hRatio) * vRatio +
    i3 * hRatio * (1 - vRatio) + i4 * hRatio * vRatio

/-! ## Claim C1 -/

/-- C1: the claim states that a photometric input declaring `N` vertical
angles, `M` horizontal angles and an `M×N` candela matrix, wrapped across
arbitrarily many physical lines, parses to exactly `N` vertical angles, `M`
horizontal angles and `M` rows of `N` candela values equal to the input
tokens in order.  Evaluating `parsePhotometricData` on an input with
`N = 4` vertical angles wrapped over two lines (`0 30` / `60 90`) and
`M = 2` horizontal angles shows the code instead produces SIX vertical
angles `[0, 30, 0, 30, 60, 90]` (the accumulation loop re-pushes the
re-parsed tokens of every previously read line) and an EMPTY candela
matrix (the candela loop bound reads the overwritten `horizontalAngles`
field, an array, whose numeric coercion is NaN). -/
theorem C1_wrapped_arrays_misparsed :
    (parsePhotometricData
        [[1, 1000, 1, 4, 2, 1, 2, 0, 0, 0], [1, 1, 0],
         [0, 30], [60, 90], [0, 90],
         [10, 20, 30, 40], [50, 60, 70, 80]]).map
      (fun d => (d.verticalAngles, d.horizontalAngles, d.candela)) =
    Except.ok ([0, 30, 0, 30, 60, 90], [0, 90], []) := by
  rfl

/-! ## Properties of the horizontal-angle normalization -/

theorem whileNeg_of_nonneg {h : ℚ} (h0 : 0 ≤ h) : whileNeg h = h := by
  unfold whileNeg
  rw [dif_neg (not_lt.mpr h0)]

theorem whileBig_of_lt {h : ℚ} (h1 : h < 360) : whileBig h = h := by
  unfold whileBig
  rw [dif_neg (not_le.mpr h1)]

theorem normalizeH_of_range {h : ℚ} (h0 : 0 ≤ h) (h1 : h < 360) :
    normalizeH h = h := by
  unfold normalizeH
  rw [whileNeg_of_nonneg h0, whileBig_of_lt h1]

theorem whileNeg_nonneg (h : ℚ) : 0 ≤ whileNeg h := by
  induction h using whileNeg.induct with
  | case1 h hlt ih =>
    unfold whileNeg
    rwa [dif_pos hlt]
  | case2 h hlt =>
    rw [whileNeg_of_nonneg (not_lt.mp hlt)]
    exact not_lt.mp hlt

theorem whileBig_lt (h : ℚ) : whileBig h < 360 := by
  induction h using whileBig.induct with
  | case1 h hge ih =>
    unfold whileBig
    rwa [dif_pos hge]
  | case2 h hge =>
    rw [whileBig_of_lt (not_le.mp hge)]
    exact not_le.mp hge

theorem whileBig_nonneg {h : ℚ} (h0 : 0 ≤ h) : 0 ≤ whileBig h := by
  induction h using whileBig.induct with
  | case1 h hge ih =>
    unfold whileBig
    rw [dif_pos hge]
    exact ih (by linarith)
  | case2 h hge =>
    rw [whileBig_of_lt (not_le.mp hge)]
    exact h0

theorem normalizeH_mem (h : ℚ) : 0 ≤ normalizeH h ∧ normalizeH h < 360 :=
  ⟨whileBig_nonneg (whileNeg_nonneg h), whileBig_lt (whileNeg h)⟩

theorem normalizeH_add_360 (h : ℚ) : normalizeH (h + 360) = normalizeH h := by
  by_cases hneg : h < 0
  · have e : whileNeg h = whileNeg (h + 360) := by
      conv_lhs => unfold whileNeg
      rw [dif_pos hneg]
    unfold normalizeH
    rw [e]
  · push_neg at hneg
    unfold normalizeH
    rw [whileNeg_of_nonneg hneg, whileNeg_of_nonneg (by linarith : (0:ℚ) ≤ h + 360)]
    conv_lhs => unfold whileBig
    rw [dif_pos (by linarith : (360:ℚ) ≤ h + 360)]
    norm_num

theorem normalizeH_add_int (h : ℚ) (k : ℤ) :
    normalizeH (h + 360 * (k : ℚ)) = normalizeH h := by
  induction k using Int.induction_on with
  | hz => norm_num
  | hp n ih =>
    have e : h + 360 * ((n : ℚ) + 1) = (h + 360 * (n : ℚ)) + 360 := by ring
    push_cast
    push_cast at ih
    rw [e, normalizeH_add_360, ih]
  | hn n ih =>
    have e : (h + 360 * (-(n : ℚ) - 1)) + 360 = h + 360 * (-(n : ℚ)) := by ring
    push_cast
    push_cast at ih
    calc normalizeH (h + 360 * (-(n : ℚ) - 1))
        = normalizeH ((h + 360 * (-(n : ℚ) - 1)) + 360) := (normalizeH_add_360 _).symm
      _ = normalizeH h := by rw [e]; exact ih

/-! ## Claim C4 -/

/-- C4: querying `getIntensityAtAngle` at a horizontal angle shifted by any
integer multiple of 360° yields the same intensity as at the original
angle (in particular 370° behaves exactly like 10°), because the
horizontal angle is first wrap-normalized into `[0, 360)` by repeated
`±360` adjustment. -/
theorem C4_horizontal_wrap_periodic (d : PhotoData) (v h : ℚ) (k : ℤ) :
    (0 ≤ normalizeH h ∧ normalizeH h < 360) ∧
      getIntensityAtAngle d v (h + 360 * (k : ℚ)) = getIntensityAtAngle d v h := by
  refine ⟨normalizeH_mem h, ?_⟩
  unfold getIntensityAtAngle
  rw [normalizeH_add_int h k]

/-! ## Bracket-search lemmas -/

/-- Ratio of the query position inside the bracketing interval, with the
zero-width guard of the source (`vDelta > 0 ? ... : 0`). -/
def ratioOf (angles : List ℚ) (q : ℚ) : ℚ :=
  if angles.getD (bracket angles q).2 0 - angles.getD (bracket angles q).1 0 > 0
  then (q - angles.getD (bracket angles q).1 0) /
    (angles.getD (bracket angles q).2 0 - angles.getD (bracket angles q).1 0)
  else 0

/-- Restatement of `getIntensityAtAngle` through `bracket` and `ratioOf`;
definitionally equal to the source translation. -/
theorem getIntensityAtAngle_eq (d : PhotoData) (v h : ℚ) :
    getIntensityAtAngle d v h =
      (d.candela.getD (bracket d.horizontalAngles (normalizeH h)).1 []).getD
          (bracket d.verticalAngles (max 0 (min 180 v))).1 0
        * (1 - ratioOf d.horizontalAngles (normalizeH h))
        * (1 - ratioOf d.verticalAngles (max 0 (min 180 v)))
      + (d.candela.getD (bracket d.horizontalAngles (normalizeH h)).1 []).getD
          (bracket d.verticalAngles (max 0 (min 180 v))).2 0
        * (1 - ratioOf d.horizontalAngles (normalizeH h))
        * ratioOf d.verticalAngles (max 0 (min 180 v))
      + (d.candela.getD (bracket d.horizontalAngles (normalizeH h)).2 []).getD
          (bracket d.verticalAngles (max 0 (min 180 v))).1 0
        * ratioOf d.horizontalAngles (normalizeH h)
        * (1 - ratioOf d.verticalAngles (max 0 (min 180 v)))
      + (d.candela.getD (bracket d.horizontalAngles (normalizeH h)).2 []).getD
          (bracket d.verticalAngles (max 0 (min 180 v))).2 0
        * ratioOf d.horizontalAngles (normalizeH h)
        * ratioOf d.verticalAngles (max 0 (min 180 v)) := rfl

theorem getD_lt_getD {V : List ℚ} (hs : List.Sorted (· < ·) V) {i j : ℕ}
    (hij : i < j) (hj : j < V.length) : V.getD i 0 < V.getD j 0 := by
  have hi : i < V.length := lt_trans hij hj
  have h2 := hs.get_strictMono
    (show (⟨i, hi⟩ : Fin V.length) < ⟨j, hj⟩ from Fin.mk_lt_mk.mpr hij)
  rw [List.getD_eq_getElem V 0 hi, List.getD_eq_getElem V 0 hj]
  simpa [List.get_eq_getElem] using h2

theorem getD_mem_of_lt {V : List ℚ} {j : ℕ} (hj : j < V.length) :
    V.getD j 0 ∈ V := by
  rw [List.getD_eq_getElem V 0 hj]
  exact List.getElem_mem hj

theorem getD_nonneg {l : List ℚ} (h : ∀ x ∈ l, 0 ≤ x) (n : ℕ) :
    0 ≤ l.getD n 0 := by
  by_cases hn : n < l.length
  · rw [List.getD_eq_getElem l 0 hn]
    exact h _ (List.getElem_mem hn)
  · push_neg at hn
    rw [List.getD_eq_default l 0 hn]

theorem matrix_getD_nonneg {m : List (List ℚ)}
    (h : ∀ row ∈ m, ∀ x ∈ row, 0 ≤ x) (i j : ℕ) :
    0 ≤ (m.getD i []).getD j 0 := by
  by_cases hi : i < m.length
  · refine getD_nonneg ?_ j
    intro x hx
    refine h _ ?_ x hx
    rw [List.getD_eq_getElem m [] hi]
    exact List.getElem_mem hi
  · push_neg at hi
    rw [List.getD_eq_default m [] hi]
    simp

theorem findPair_some_spec : ∀ {V : List ℚ} {q : ℚ} {i : ℕ},
    findPair q V = some i →
    V.getD i 0 ≤ q ∧ q ≤ V.getD (i + 1) 0 ∧ i + 1 < V.length := by
  intro V
  induction V with
  | nil => intro q i h; simp [findPair] at h
  | cons a t ih =>
    intro q i h
    cases t with
    | nil => simp [findPair] at h
    | cons b rest =>
      unfold findPair at h
      by_cases hc : a ≤ q ∧ q ≤ b
      · rw [if_pos hc] at h
        injection h with h'
        subst h'
        exact ⟨by simpa using hc.1, by simpa using hc.2, by simp⟩
      · rw [if_neg hc] at h
        cases hf : findPair q (b :: rest) with
        | none => rw [hf] at h; simp at h
        | some j =>
          rw [hf] at h
          simp only [Option.map_some'] at h
          injection h with h'
          subst h'
          obtain ⟨h1, h2, h3⟩ := ih hf
          refine ⟨by simpa [List.getD_cons_succ] using h1,
            by simpa [List.getD_cons_succ] using h2, ?_⟩
          simp only [List.length_cons] at h3 ⊢
          omega

theorem findPair_singleton (q a : ℚ) : findPair q [a] = none := rfl

theorem findPair_self_zero {V : List ℚ} (hs : List.Sorted (· < ·) V)
    (hlen : 2 ≤ V.length) : findPair (V.getD 0 0) V = some 0 := by
  match V, hlen with
  | a :: b :: rest, _ =>
    have hab : a < b := (List.sorted_cons.mp hs).1 b (by simp)
    unfold findPair
    simp only [List.getD_cons_zero]
    rw [if_pos ⟨le_refl a, le_of_lt hab⟩]

theorem findPair_self_succ : ∀ {V : List ℚ}, List.Sorted (· < ·) V →
    ∀ {j : ℕ}, 1 ≤ j → j < V.length →
    findPair (V.getD j 0) V = some (j - 1) := by
  intro V
  induction V with
  | nil => intro _ j _ hj; simp at hj
  | cons a t ih =>
    intro hs j hj1 hjlen
    cases t with
    | nil => simp at hjlen; omega
    | cons b rest =>
      obtain ⟨hhead, hstail⟩ := List.sorted_cons.mp hs
      obtain ⟨j', rfl⟩ : ∃ j', j = j' + 1 := ⟨j - 1, by omega⟩
      simp only [List.getD_cons_succ]
      by_cases hj'0 : j' = 0
      · subst hj'0
        unfold findPair
        simp only [List.getD_cons_zero]
        rw [if_pos ⟨le_of_lt (hhead b (by simp)), le_refl b⟩]
      · have hq : b < (b :: rest).getD j' 0 := by
          have hlt := getD_lt_getD hstail (Nat.pos_of_ne_zero hj'0)
            (by simp only [List.length_cons] at hjlen ⊢; omega)
          simpa using hlt
        unfold findPair
        rw [if_neg (fun hc => absurd hq (not_lt.mpr hc.2))]
        rw [ih hstail (by omega)
          (by simp only [List.length_cons] at hjlen ⊢; omega)]
        simp only [Option.map_some']
        congr 1
        omega

theorem findPair_found : ∀ {V : List ℚ}, List.Sorted (· < ·) V → ∀ {q : ℚ},
    2 ≤ V.length → V.getD 0 0 ≤ q → q ≤ V.getD (V.length - 1) 0 →
    (findPair q V).isSome := by
  intro V
  induction V with
  | nil => intro _ q h; simp at h
  | cons a t ih =>
    intro hs q hlen hlow hhigh
    cases t with
    | nil => simp at hlen
    | cons b rest =>
      obtain ⟨hhead, hstail⟩ := List.sorted_cons.mp hs
      by_cases hqb : q ≤ b
      · unfold findPair
        rw [if_pos ⟨by simpa using hlow, hqb⟩]
        simp
      · push_neg at hqb
        cases rest with
        | nil =>
          exfalso
          simp only [List.length_cons, List.length_nil] at hhigh
          norm_num [List.getD_cons_succ, List.getD_cons_zero] at hhigh
          exact absurd hhigh (not_le.mpr hqb)
        | cons c rest' =>
          unfold findPair
          rw [if_neg (fun hc => absurd hc.2 (not_le.mpr hqb))]
          have hhigh' : q ≤ (b :: c :: rest').getD ((b :: c :: rest').length - 1) 0 := by
            have he : (a :: b :: c :: rest').length - 1 =
                ((b :: c :: rest').length - 1) + 1 := by
              simp only [List.length_cons]
              omega
            rw [he, List.getD_cons_succ] at hhigh
            exact hhigh
          have hrec := ih hstail (q := q) (by simp) (by simpa using le_of_lt hqb) hhigh'
          rw [Option.isSome_map']
          exact hrec

theorem ratioOf_self {V : List ℚ} (hs : List.Sorted (· < ·) V) {j : ℕ}
    (hj : j < V.length) :
    (ratioOf V (V.getD j 0) = 0 ∧ (bracket V (V.getD j 0)).1 = j) ∨
    (ratioOf V (V.getD j 0) = 1 ∧ (bracket V (V.getD j 0)).2 = j) := by
  by_cases hj1 : 1 ≤ j
  · right
    have hfp := findPair_self_succ hs hj1 hj
    have hb : bracket V (V.getD j 0) = (j - 1, j) := by
      unfold bracket
      rw [hfp]
      have he : j - 1 + 1 = j := Nat.succ_pred_eq_of_pos hj1
      simp [he]
    refine ⟨?_, by rw [hb]⟩
    unfold ratioOf
    rw [hb]
    dsimp only
    have hΔ : V.getD j 0 - V.getD (j - 1) 0 > 0 :=
      sub_pos.mpr (getD_lt_getD hs (by omega) hj)
    rw [if_pos hΔ]
    exact div_self (ne_of_gt hΔ)
  · have hj0 : j = 0 := by omega
    subst hj0
    left
    by_cases hlen : 2 ≤ V.length
    · have hfp := findPair_self_zero hs hlen
      have hb : bracket V (V.getD 0 0) = (0, 1) := by
        unfold bracket
        rw [hfp]
      refine ⟨?_, by rw [hb]⟩
      unfold ratioOf
      rw [hb]
      dsimp only
      by_cases hΔ : V.getD 1 0 - V.getD 0 0 > 0
      · rw [if_pos hΔ]
        simp
      · rw [if_neg hΔ]
    · have hlen1 : V.length = 1 := by omega
      have hfp : findPair (V.getD 0 0) V = none := by
        match V, hlen1 with
        | [a], _ => exact findPair_singleton _ a
      have hb : bracket V (V.getD 0 0) = (0, 0) := by
        unfold bracket
        rw [hfp, hlen1]
      refine ⟨?_, by rw [hb]⟩
      unfold ratioOf
      rw [hb]
      simp

theorem bracket_bounds_of_range {V : List ℚ} (hs : List.Sorted (· < ·) V)
    {q : ℚ} (hne : V ≠ []) (hlow : V.getD 0 0 ≤ q)
    (hhigh : q ≤ V.getD (V.length - 1) 0) :
    0 ≤ ratioOf V q ∧ ratioOf V q ≤ 1 := by
  by_cases hlen : 2 ≤ V.length
  · have hsome := findPair_found hs hlen hlow hhigh
    obtain ⟨i, hi⟩ := Option.isSome_iff_exists.mp hsome
    obtain ⟨h1, h2, _h3⟩ := findPair_some_spec hi
    have hb : bracket V q = (i, i + 1) := by
      unfold bracket
      rw [hi]
    unfold ratioOf
    rw [hb]
    dsimp only
    by_cases hΔ : V.getD (i + 1) 0 - V.getD i 0 > 0
    · rw [if_pos hΔ]
      constructor
      · exact div_nonneg (by linarith) (le_of_lt hΔ)
      · rw [div_le_one hΔ]
        linarith
    · rw [if_neg hΔ]
      norm_num
  · have hlen1 : V.length = 1 := by
      cases V with
      | nil => simp at hne
      | cons a t =>
        cases t with
        | nil => rfl
        | cons b r => simp only [List.length_cons] at hlen; omega
    have hfp : findPair q V = none := by
      match V, hlen1 with
      | [a], _ => exact findPair_singleton q a
    have hb : bracket V q = (0, 0) := by
      unfold bracket
      rw [hfp, hlen1]
    unfold ratioOf
    rw [hb]
    simp

theorem interp_nonneg {c1 c2 c3 c4 rh rv : ℚ}
    (h1 : 0 ≤ c1) (h2 : 0 ≤ c2) (h3 : 0 ≤ c3) (h4 : 0 ≤ c4)
    (hrh0 : 0 ≤ rh) (hrh1 : rh ≤ 1) (hrv0 : 0 ≤ rv) (hrv1 : rv ≤ 1) :
    0 ≤ c1 * (1 - rh) * (1 - rv) + c2 * (1 - rh) * rv +
        c3 * rh * (1 - rv) + c4 * rh * rv := by
  have w1 : (0 : ℚ) ≤ 1 - rh := by linarith
  have w2 : (0 : ℚ) ≤ 1 - rv := by linarith
  have t1 : 0 ≤ c1 * (1 - rh) * (1 - rv) := mul_nonneg (mul_nonneg h1 w1) w2
  have t2 : 0 ≤ c2 * (1 - rh) * rv := mul_nonneg (mul_nonneg h2 w1) hrv0
  have t3 : 0 ≤ c3 * rh * (1 - rv) := mul_nonneg (mul_nonneg h3 hrh0) w2
  have t4 : 0 ≤ c4 * rh * rv := mul_nonneg (mul_nonneg h4 hrh0) hrv0
  linarith

/-! ## Claim C2 -/

/-- C2: for every well-formed photometric dataset (strictly ascending angle
arrays within their format domains), `getIntensityAtAngle` queried exactly
at a recorded (vertical, horizontal) grid vertex returns exactly the
candela value recorded at that vertex, unmodified. -/
theorem C2_exact_at_recorded_vertex (d : PhotoData)
    (hv : List.Sorted (· < ·) d.verticalAngles)
    (hh : List.Sorted (· < ·) d.horizontalAngles)
    (hvr : ∀ a ∈ d.verticalAngles, 0 ≤ a ∧ a ≤ 180)
    (hhr : ∀ a ∈ d.horizontalAngles, 0 ≤ a ∧ a < 360)
    {j i : ℕ} (hj : j < d.verticalAngles.length)
    (hi : i < d.horizontalAngles.length) :
    getIntensityAtAngle d (d.verticalAngles.getD j 0)
        (d.horizontalAngles.getD i 0) =
      (d.candela.getD i []).getD j 0 := by
  have hvmem := hvr _ (getD_mem_of_lt hj)
  have hhmem := hhr _ (getD_mem_of_lt hi)
  have hclamp : max 0 (min 180 (d.verticalAngles.getD j 0)) =
      d.verticalAngles.getD j 0 := by
    rw [min_eq_right hvmem.2, max_eq_right hvmem.1]
  have hnorm : normalizeH (d.horizontalAngles.getD i 0) =
      d.horizontalAngles.getD i 0 :=
    normalizeH_of_range hhmem.1 hhmem.2
  rw [getIntensityAtAngle_eq, hclamp, hnorm]
  rcases ratioOf_self hv hj with ⟨hrv, hbv⟩ | ⟨hrv, hbv⟩ <;>
    rcases ratioOf_self hh hi with ⟨hrh, hbh⟩ | ⟨hrh, hbh⟩ <;>
    rw [hrv, hrh, hbv, hbh] <;> ring

/-- Concrete well-formed dataset used by witnesses. -/
def sampleDataset : PhotoData :=
  { lampCount := 1, lumensPerLamp := 1000, candleMultiplier := 1,
    angleCount := 3, photometricType := 1, unitType := 2,
    width := 0, length := 0, height := 0,
    ballastFactor := 1, ballastLampFactor := 1, inputWatts := 0,
    verticalAngles := [0, 45, 90], horizontalAngles := [0, 90],
    candela := [[100, 80, 10], [90, 70, 5]] }

/-- Witness for C2 at the concrete vertex (45°, 90°) of `sampleDataset`,
whose recorded candela value is 70. -/
theorem C2_exact_at_recorded_vertex_witness :
    getIntensityAtAngle sampleDataset 45 90 = 70 := by
  have h := C2_exact_at_recorded_vertex sampleDataset (by decide) (by decide)
    (by decide) (by decide) (j := 1) (i := 1) (by decide) (by decide)
  exact h

/-! ## Claim C3 -/

/-- Dataset with non-negative candela values on which `getIntensityAtAngle`
returns a negative intensity for an out-of-range query. -/
def cexDataset : PhotoData :=
  { lampCount := 1, lumensPerLamp := 1000, candleMultiplier := 1,
    angleCount := 2, photometricType := 1, unitType := 2,
    width := 0, length := 0, height := 0,
    ballastFactor := 1, ballastLampFactor := 1, inputWatts := 0,
    verticalAngles := [10, 20], horizontalAngles := [0],
    candela := [[0, 100]] }

/-- C3 counterexample: `cexDataset` has only finite, non-negative candela
values (`0` and `100`), yet querying vertical angle 0° — below the first
recorded vertical angle 10° — yields the negative intensity `-100`: when
the bracket search fails, the code keeps the loop initialization
`(0, length - 1)` and the interpolation weight `(0 - 10) / (20 - 10) = -1`
extrapolates instead of clamping. -/
theorem C3_negative_result_counterexample :
    getIntensityAtAngle cexDataset 0 0 < 0 := by
  rw [getIntensityAtAngle_eq,
    normalizeH_of_range (by norm_num : (0:ℚ) ≤ 0) (by norm_num)]
  norm_num [cexDataset, ratioOf, bracket, findPair]

/-- C3 (amended): when the clamped vertical query and the wrap-normalized
horizontal query both lie within the recorded range of their angle arrays,
the result is a convex combination of recorded candela values, hence
finite and non-negative whenever all candela values are non-negative.
Outside the recorded range the code extrapolates linearly from the
loop-initialization pair `(0, length - 1)` and can return negative values. -/
theorem C3_intensity_nonneg_within_range (d : PhotoData)
    (hv : List.Sorted (· < ·) d.verticalAngles)
    (hh : List.Sorted (· < ·) d.horizontalAngles)
    (hvne : d.verticalAngles ≠ []) (hhne : d.horizontalAngles ≠ [])
    (hcand : ∀ row ∈ d.candela, ∀ x ∈ row, 0 ≤ x)
    (v h : ℚ)
    (hv1 : d.verticalAngles.getD 0 0 ≤ max 0 (min 180 v))
    (hv2 : max 0 (min 180 v) ≤
      d.verticalAngles.getD (d.verticalAngles.length - 1) 0)
    (hh1 : d.horizontalAngles.getD 0 0 ≤ normalizeH h)
    (hh2 : normalizeH h ≤
      d.horizontalAngles.getD (d.horizontalAngles.length - 1) 0) :
    0 ≤ getIntensityAtAngle d v h := by
  rw [getIntensityAtAngle_eq]
  obtain ⟨hrv0, hrv1⟩ := bracket_bounds_of_range hv hvne hv1 hv2
  obtain ⟨hrh0, hrh1⟩ := bracket_bounds_of_range hh hhne hh1 hh2
  exact interp_nonneg (matrix_getD_nonneg hcand _ _) (matrix_getD_nonneg hcand _ _)
    (matrix_getD_nonneg hcand _ _) (matrix_getD_nonneg hcand _ _)
    hrh0 hrh1 hrv0 hrv1

/-- Witness for the amended C3: an in-range query on `cexDataset` is
non-negative. -/
theorem C3_intensity_nonneg_within_range_witness :
    0 ≤ getIntensityAtAngle cexDataset 15 0 := by
  apply C3_intensity_nonneg_within_range cexDataset (by decide) (by decide)
    (by decide) (by decide) (by decide) 15 0
  · decide
  · decide
  · rw [normalizeH_of_range (by norm_num : (0:ℚ) ≤ 0) (by norm_num)]
    decide
  · rw [normalizeH_of_range (by norm_num : (0:ℚ) ≤ 0) (by norm_num)]
    decide

/-! ## Coefficient-of-utilization formulas

Three distinct CU computations exist in the source: the room-index helper
`calculateCU` in `calculations/index.js` (pure rational arithmetic, over
`ℚ`), and the two `Math.exp`-based formulas — the advanced IESNA
`calculateCoefficientOfUtilization` in `calculations/advance-iesna.js` and
the distribution-type `calculateCoefficientOfUtilization` of the CU
methods module — which are modelled over `ℝ` with `Real.exp` standing for
`Math.exp`. -/

/-- `calculateCU(roomIndex, ceilingRefl, wallRefl)`
(calculations/index.js, lines 218-237). -/
def calculateCU (roomIndex ceilingRefl wallRefl : ℚ) : ℚ :=
  let baseCU : ℚ := 0.4
  let baseCU' :=
    if roomIndex < 1 then baseCU * 0.8
    else if roomIndex > 3 then baseCU * 1.2
    else baseCU * (0.8 + (roomIndex - 1) * 0.13)
  let reflFactor := 0.7 * ceilingRefl + 0.3 * wallRefl
  let adjustedCU := baseCU' * (0.7 + 0.3 * reflFactor)
  min (max adjustedCU 0.1) 0.95

/-- Room configuration consumed by the CU formulas (`room.reflectances.*`
flattened into fields). -/
structure RoomCfg where
  length : ℝ
  width : ℝ
  height : ℝ
  workPlaneHeight : ℝ
  reflCeiling : ℝ
  reflWalls : ℝ
  reflFloor : ℝ

/-- `calculateRoomCavityRatio(room)`:
`RCR = 5 · (height − workPlaneHeight) · (L + W) / (L · W)` (identical in
advance-iesna.js and the CU methods module). -/
noncomputable def calculateRoomCavityRatio (room : RoomCfg) : ℝ :=
  5 * (room.height - room.workPlaneHeight) * (room.length + room.width) /
    (room.length * room.width)

/-- Advanced IESNA `calculateCoefficientOfUtilization(luminaire, room)`
(advance-iesna.js, lines 341-365).  Note the final clamp is
`Math.min(1, Math.max(0, CU))` — the range `[0, 1]`, not `[0.1, 0.95]`. -/
noncomputable def calculateCoefficientOfUtilizationAdv (room : RoomCfg) : ℝ :=
  let RCR := calculateRoomCavityRatio room
  let pc := room.reflCeiling
  let pf := room.reflFloor
  let pw := room.reflWalls
  let CU := 0.95 * Real.exp (-0.24 * RCR) *
    (0.8 + 0.2 * pc) * (0.8 + 0.2 * pf) * (0.7 + 0.3 * pw)
  min 1 (max 0 CU)

/-- `calculateDirectCU(rcr, pc, pw, pf)` of the CU methods module. -/
noncomputable def calculateDirectCU (rcr pc pw pf : ℝ) : ℝ :=
  let ceilingFactor := 0.8 + 0.2 * pc
  let wallFactor := 0.7 + 0.3 * pw
  let floorFactor := 0.9 + 0.1 * pf
  let rcrFactor := Real.exp (-0.25 * rcr)
  0.95 * ceilingFactor * wallFactor * floorFactor * rcrFactor

/-- `calculateIndirectCU(rcr, pc, pw, pf)` of the CU methods module. -/
noncomputable def calculateIndirectCU (rcr pc pw pf : ℝ) : ℝ :=
  let ceilingFactor := 0.6 + 0.4 * pc
  let wallFactor := 0.7 + 0.3 * pw
  let floorFactor := 0.95 + 0.05 * pf
  let rcrFactor := Real.exp (-0.15 * rcr)
  0.75 * ceilingFactor * wallFactor * floorFactor * rcrFactor

/-- `getLuminaireDistributionType(luminaire)`: ad hoc lookup by the
lower-cased free-text type string; absent type defaults to `direct`. -/
def getLuminaireDistributionType (lumType : Option String) : String :=
  match lumType with
  | none => "direct"
  | some s =>
    let t := s.toLower
    if t = "downlight" ∨ t = "highbay" ∨ t = "floodlight" then "direct"
    else if t = "cove" ∨ t = "uplighting" then "indirect"
    else if t = "pendant" then "direct-indirect"
    else if t = "wallwash" ∨ t = "track" then "semi-direct"
    else "direct"

/-- Distribution-type `calculateCoefficientOfUtilization(roomConfig,
luminaire)` of the CU methods module: direct / indirect base formulas and
fixed-weight blends, finally clamped by `Math.max(0, Math.min(1, cu))` —
again the range `[0, 1]`, not `[0.1, 0.95]`. -/
noncomputable def calculateCoefficientOfUtilizationDist
    (room : RoomCfg) (lumType : Option String) : ℝ :=
  let rcr := calculateRoomCavityRatio room
  let pc := room.reflCeiling
  let pw := room.reflWalls
  let pf := room.reflFloor
  let distributionType := getLuminaireDistributionType lumType
  let cu :=
    if distributionType = "direct" then calculateDirectCU rcr pc pw pf
    else if distributionType = "indirect" then calculateIndirectCU rcr pc pw pf
    else if distributionType = "semi-direct" then
      0.7 * calculateDirectCU rcr pc pw pf + 0.3 * calculateIndirectCU rcr pc pw pf
    else if distributionType = "semi-indirect" then
      0.3 * calculateDirectCU rcr pc pw pf + 0.7 * calculateIndirectCU rcr pc pw pf
    else if distributionType = "direct-indirect" then
      0.5 * calculateDirectCU rcr pc pw pf + 0.5 * calculateIndirectCU rcr pc pw pf
    else calculateDirectCU rcr pc pw pf
  max 0 (min 1 cu)

/-! ## Claim C5 -/

/-- Small room with a deep cavity: `RCR = 5·4·(1+1)/(1·1) = 40`. -/
noncomputable def c5Room : RoomCfg :=
  { length := 1, width := 1, height := 4, workPlaneHeight := 0,
    reflCeiling := 0.5, reflWalls := 0.5, reflFloor := 0.5 }

/-- C5 counterexample: the claim states every CU computation of the engine
lands in `[0.1, 0.95]`, but the advanced IESNA CU at `c5Room` (cavity
ratio 40, all reflectances 0.5) is strictly below `0.1`: its clamp is only
`[0, 1]` and `0.95·e^(−9.6)·0.9·0.9·0.85 < 0.1`. -/
theorem C5_advanced_cu_below_clamp :
    calculateCoefficientOfUtilizationAdv c5Room < 0.1 := by
  have hrcr : calculateRoomCavityRatio c5Room = 40 := by
    unfold calculateRoomCavityRatio c5Room
    norm_num
  have hexp_pos : (0 : ℝ) < Real.exp (-0.24 * 40) := Real.exp_pos _
  have hexp : Real.exp (-0.24 * (40 : ℝ)) ≤ 1 / 10.6 := by
    have h1 := Real.add_one_le_exp (9.6 : ℝ)
    have h2 : Real.exp (-0.24 * (40 : ℝ)) = (Real.exp 9.6)⁻¹ := by
      rw [show (-0.24 * (40 : ℝ)) = -(9.6 : ℝ) by norm_num, Real.exp_neg]
    rw [h2]
    have h3 : (10.6 : ℝ) ≤ Real.exp 9.6 := by linarith
    have h4 : (Real.exp 9.6)⁻¹ ≤ (10.6 : ℝ)⁻¹ :=
      inv_anti₀ (by norm_num) h3
    calc (Real.exp 9.6)⁻¹ ≤ (10.6 : ℝ)⁻¹ := h4
      _ = 1 / 10.6 := by norm_num
  unfold calculateCoefficientOfUtilizationAdv
  rw [hrcr]
  show min 1 (max 0 (0.95 * Real.exp (-0.24 * 40) *
    (0.8 + 0.2 * c5Room.reflCeiling) * (0.8 + 0.2 * c5Room.reflFloor) *
    (0.7 + 0.3 * c5Room.reflWalls))) < 0.1
  have hc : c5Room.reflCeiling = 0.5 ∧ c5Room.reflFloor = 0.5 ∧
      c5Room.reflWalls = 0.5 := ⟨rfl, rfl, rfl⟩
  rw [hc.1, hc.2.1, hc.2.2]
  have hcu : 0.95 * Real.exp (-0.24 * 40) * (0.8 + 0.2 * (0.5 : ℝ)) *
      (0.8 + 0.2 * (0.5 : ℝ)) * (0.7 + 0.3 * (0.5 : ℝ)) < 0.1 := by
    nlinarith [hexp, hexp_pos]
  have hmax : max (0 : ℝ) (0.95 * Real.exp (-0.24 * 40) * (0.8 + 0.2 * (0.5 : ℝ)) *
      (0.8 + 0.2 * (0.5 : ℝ)) * (0.7 + 0.3 * (0.5 : ℝ))) < 0.1 := by
    rw [max_eq_right (by positivity)]
    exact hcu
  calc min 1 (max (0:ℝ) _) ≤ max (0:ℝ) _ := min_le_right _ _
    _ < 0.1 := hmax

/-- C5 (amended): only the room-index helper `calculateCU` clamps into
`[0.1, 0.95]`; the advanced IESNA CU and the distribution-type CU clamp
into `[0, 1]` only (and can fall below `0.1`, as the counterexample
shows). -/
theorem C5_cu_clamp_ranges (roomIndex ceilingRefl wallRefl : ℚ)
    (room : RoomCfg) (lumType : Option String) :
    (0.1 ≤ calculateCU roomIndex ceilingRefl wallRefl ∧
      calculateCU roomIndex ceilingRefl wallRefl ≤ 0.95) ∧
    (0 ≤ calculateCoefficientOfUtilizationAdv room ∧
      calculateCoefficientOfUtilizationAdv room ≤ 1) ∧
    (0 ≤ calculateCoefficientOfUtilizationDist room lumType ∧
      calculateCoefficientOfUtilizationDist room lumType ≤ 1) := by
  refine ⟨⟨?_, ?_⟩, ⟨?_, ?_⟩, ⟨?_, ?_⟩⟩
  · unfold calculateCU
    exact le_min (le_max_right _ _) (by norm_num)
  · unfold calculateCU
    exact min_le_right _ _
  · unfold calculateCoefficientOfUtilizationAdv
    exact le_min (by norm_num) (le_max_left _ _)
  · unfold calculateCoefficientOfUtilizationAdv
    exact min_le_left _ _
  · unfold calculateCoefficientOfUtilizationDist
    exact le_max_left _ _
  · unfold calculateCoefficientOfUtilizationDist
    exact max_le (by norm_num) (min_le_left _ _)

/-! ## Advanced IESNA glare computations (advance-iesna.js)

The module-level identifiers `getIntensityInDirection` (read in
`calculateDirectVerticalIlluminance`) and `observerPosition` (read in
`calculateDiscomfortGlareRating`) are defined nowhere in the module, in its
imports, or on the global object; reading them throws a `ReferenceError`.
The model makes every such read an explicit `Except` failure, and keeps
`Math.sqrt` / `Math.atan2` / `Math.exp` / fractional `Math.pow` /
`Math.log10` as opaque function parameters (they are only ever reached on
code paths the theorems do not depend on). -/

/-- One entry of `luminaire.fixtures`. -/
structure Fixture where
  x : ℚ
  y : ℚ
  z : ℚ
  area : ℚ
  luminousFlux : ℚ

instance : Inhabited Fixture := ⟨⟨0, 0, 0, 0, 0⟩⟩

/-- Observer position `{x, y, eyeHeight}`. -/
structure Observer where
  x : ℚ
  y : ℚ
  eyeHeight : ℚ

/-- Room configuration consumed by `calculateBackgroundLuminance`; the
`averageIlluminance` field models `roomConfig.averageIlluminance || 500`
(`0` is falsy in JavaScript, hence also replaced by 500). -/
structure GlareRoomCfg where
  length : ℚ
  width : ℚ
  height : ℚ
  reflCeiling : ℚ
  reflWalls : ℚ
  reflFloor : ℚ
  averageIlluminance : Option ℚ

/-- JavaScript runtime failures surfaced by the model. -/
inductive JsErr where
  | referenceError (name : String)
deriving DecidableEq

/-- Reading the undefined identifier `getIntensityInDirection`. -/
def getIntensityInDirectionDyn : Except JsErr (Fixture → ℚ → ℚ → ℚ → ℚ) :=
  throw (JsErr.referenceError "getIntensityInDirection")

/-- Reading the undefined identifier `observerPosition` from inside
`calculateDiscomfortGlareRating`, where it is neither a parameter nor
bound in any enclosing scope. -/
def observerPositionDyn : Except JsErr Observer :=
  throw (JsErr.referenceError "observerPosition")

/-- `calculateBackgroundLuminance(roomConfig)` (advance-iesna.js 41-63). -/
def calculateBackgroundLuminance (room : GlareRoomCfg) : ℚ :=
  let totalArea := 2 * (room.length * room.width + room.length * room.height +
    room.width * room.height)
  let weightedReflectance := (room.reflCeiling * room.length * room.width +
    room.reflFloor * room.length * room.width +
    room.reflWalls * 2 * (room.length * room.height + room.width * room.height)) /
    totalArea
  let avgIlluminance :=
    match room.averageIlluminance with
    | some a => if a = 0 then 500 else a
    | none => 500
  avgIlluminance * weightedReflectance / piJS

/-- `calculateDirectVerticalIlluminance(luminaire, roomConfig,
observerPosition)` (advance-iesna.js 72-98); the call
`getIntensityInDirection(fixture, dx, dy, dz)` reads an undefined
identifier. -/
def calculateDirectVerticalIlluminance (sqrtQ : ℚ → ℚ)
    (fixtures : List Fixture) (observerPosition : Observer) : Except JsErr ℚ :=
  fixtures.foldlM (fun total fixture => do
    let dx := fixture.x - observerPosition.x
    let dy := fixture.y - observerPosition.y
    let dz := fixture.z - observerPosition.eyeHeight
    let distance := sqrtQ (dx * dx + dy * dy + dz * dz)
    let f ← getIntensityInDirectionDyn
    let intensity := f fixture dx dy dz
    let cosTheta := dz / distance
    let sinTheta := sqrtQ (dx * dx + dy * dy) / distance
    pure (total + intensity * sinTheta * cosTheta / (distance * distance))) 0

/-- `calculatePositionIndices(luminaire, observerPosition)`
(advance-iesna.js 106-141): the IESNA position-index formula below 53° of
vertical angle, the constant 1 otherwise. -/
def calculatePositionIndices (sqrtQ atan2Q expQ : ℚ → ℚ → ℚ)
    (fixtures : List Fixture) (observerPosition : Observer) : List ℚ :=
  fixtures.map (fun fixture =>
    let dx := fixture.x - observerPosition.x
    let dy := fixture.y - observerPosition.y
    let dz := fixture.z - observerPosition.eyeHeight
    let horizontalAngle := atan2Q dy dx * (180 / piJS)
    let _distance := sqrtQ (dx * dx + dy * dy + dz * dz) 0
    let verticalAngle := atan2Q dz (sqrtQ (dx * dx + dy * dy) 0) * (180 / piJS)
    if 0 ≤ verticalAngle ∧ verticalAngle < 53 then
      expQ ((35.2 - 0.31889 * verticalAngle - 1.22 * (verticalAngle / 10) ^ 2) *
          (10 : ℚ) ^ (-3 : ℤ) * horizontalAngle +
        (21 + 0.26667 * verticalAngle - 0.002963 * verticalAngle ^ 2) *
          (10 : ℚ) ^ (-5 : ℤ) * horizontalAngle ^ 2) 0
    else 1)

/-- `calculateDiscomfortGlareRating(luminaire, backgroundLuminance,
directVerticalIlluminance, positionIndices)` (advance-iesna.js 151-190).
The loop body reads `observerPosition.x` although `observerPosition` is
not in scope. -/
def calculateDiscomfortGlareRating (sqrtQ powQ log10Q : ℚ → ℚ → ℚ)
    (luminaireFixtures : List Fixture)
    (backgroundLuminance directVerticalIlluminance : ℚ)
    (positionIndices : List ℚ) : Except JsErr ℚ := do
  let sum ← (List.range luminaireFixtures.length).foldlM (fun s i => do
    let fixture := luminaireFixtures.getD i default
    let positionIndex := positionIndices.getD i 0
    let luminaireLuminance := fixture.luminousFlux / (fixture.area * piJS)
    let op ← observerPositionDyn
    let dx := fixture.x - op.x
    let dy := fixture.y - op.y
    let dz := fixture.z - op.eyeHeight
    let distance := sqrtQ (dx * dx + dy * dy + dz * dz) 0
    let solidAngle := fixture.area * |dz| / (distance * distance * distance)
    let glareFactor := 0.5 * powQ luminaireLuminance 1.6 * powQ solidAngle 0.8 /
      (positionIndex * powQ (backgroundLuminance + 0.07 * directVerticalIlluminance) 0.85)
    pure (s + glareFactor)) (0 : ℚ)
  pure (10 * log10Q (0.5 * sum) 0)

/-- `calculateVCP(luminaire, roomConfig, observerPosition)`
(advance-iesna.js 13-34): background luminance, direct vertical
illuminance, position indices, DGR, then the cubic VCP transform clamped
to `[0, 100]`. -/
def calculateVCP (sqrtQ atan2Q expQ powQ log10Q : ℚ → ℚ → ℚ)
    (fixtures : List Fixture) (room : GlareRoomCfg)
    (observerPosition : Observer) : Except JsErr ℚ := do
  let backgroundLuminance := calculateBackgroundLuminance room
  let directVerticalIlluminance ←
    calculateDirectVerticalIlluminance (fun q => sqrtQ q 0) fixtures observerPosition
  let positionIndices := calculatePositionIndices sqrtQ atan2Q expQ fixtures observerPosition
  let DGR ← calculateDiscomfortGlareRating sqrtQ powQ log10Q fixtures
    backgroundLuminance directVerticalIlluminance positionIndices
  let VCP := 100 - 4.2 * DGR + 0.0883 * DGR ^ 2 - 0.000689 * DGR ^ 3
  pure (max 0 (min 100 VCP))

/-! ## Claim C9 -/

/-- C9: for every luminaire input with at least one fixture, `calculateVCP`
does not produce a number: evaluation fails with an unbound-identifier
`ReferenceError` (the model's `Except.error (referenceError _)`), and the
discomfort-glare-rating step itself fails on the unbound identifier
`observerPosition`, which is neither a parameter of
`calculateDiscomfortGlareRating` nor defined in any enclosing scope.
(`calculateVCP`'s own failure surfaces one call earlier, on the equally
undefined `getIntensityInDirection` inside the direct-vertical-illuminance
step.) -/
theorem C9_vcp_reference_error (sqrtQ atan2Q expQ powQ log10Q : ℚ → ℚ → ℚ)
    (f : Fixture) (rest : List Fixture) (room : GlareRoomCfg) (obs : Observer)
    (bg dvi : ℚ) (positionIndices : List ℚ) :
    calculateVCP sqrtQ atan2Q expQ powQ log10Q (f :: rest) room obs =
      Except.error (JsErr.referenceError "getIntensityInDirection") ∧
    calculateDiscomfortGlareRating sqrtQ powQ log10Q (f :: rest) bg dvi
        positionIndices =
      Except.error (JsErr.referenceError "observerPosition") := by
  constructor
  · rfl
  · unfold calculateDiscomfortGlareRating
    rw [List.length_cons, List.range_succ_eq_map]
    rfl

/-! ## JavaScript number semantics (`JSVal`)

Carrier for the claims whose subject is IEEE-double special-value
behaviour (NaN propagation, division by zero).  A value is either a finite
rational `num q`, `nan`, `inf` (`+Infinity`) or `ninf` (`-Infinity`);
every operation below follows the JavaScript evaluation rules.  Negative
zero is not distinguished from zero (no settled claim depends on it). -/

inductive JSVal where
  | num (q : ℚ)
  | nan
  | inf
  | ninf
deriving DecidableEq

namespace JSVal

/-- JavaScript `+`. -/
def add : JSVal → JSVal → JSVal
  | nan, _ => nan
  | _, nan => nan
  | inf, ninf => nan
  | ninf, inf => nan
  | inf, _ => inf
  | _, inf => inf
  | ninf, _ => ninf
  | _, ninf => ninf
  | num a, num b => num (a + b)

/-- JavaScript unary minus. -/
def neg : JSVal → JSVal
  | nan => nan
  | inf => ninf
  | ninf => inf
  | num a => num (-a)

/-- JavaScript binary `-` (identical to adding the negation). -/
def sub (a b : JSVal) : JSVal := add a (neg b)

/-- JavaScript `*`. -/
def mul : JSVal → JSVal → JSVal
  | nan, _ => nan
  | _, nan => nan
  | inf, inf => inf
  | inf, ninf => ninf
  | ninf, inf => ninf
  | ninf, ninf => inf
  | inf, num b => if b = 0 then nan else if 0 < b then inf else ninf
  | num a, inf => if a = 0 then nan else if 0 < a then inf else ninf
  | ninf, num b => if b = 0 then nan else if 0 < b then ninf else inf
  | num a, ninf => if a = 0 then nan else if 0 < a then ninf else inf
  | num a, num b => num (a * b)

/-- JavaScript `/`: finite-by-zero division yields `NaN` for `0/0` and a
signed infinity otherwise (the dividing zero here is always `+0`). -/
def div : JSVal → JSVal → JSVal
  | nan, _ => nan
  | _, nan => nan
  | inf, inf => nan
  | inf, ninf => nan
  | ninf, inf => nan
  | ninf, ninf => nan
  | inf, num b => if 0 ≤ b then inf else ninf
  | ninf, num b => if 0 ≤ b then ninf else inf
  | num _, inf => num 0
  | num _, ninf => num 0
  | num a, num b =>
    if b = 0 then (if a = 0 then nan else if 0 < a then inf else ninf)
    else num (a / b)

/-- `Math.min`. -/
def jsMin : JSVal → JSVal → JSVal
  | nan, _ => nan
  | _, nan => nan
  | ninf, _ => ninf
  | _, ninf => ninf
  | inf, b => b
  | a, inf => a
  | num a, num b => num (min a b)

/-- `Math.max`. -/
def jsMax : JSVal → JSVal → JSVal
  | nan, _ => nan
  | _, nan => nan
  | inf, _ => inf
  | _, inf => inf
  | ninf, b => b
  | a, ninf => a
  | num a, num b => num (max a b)

/-- `Math.round`: nearest integer, halves toward `+∞`. -/
def rnd : JSVal → JSVal
  | nan => nan
  | inf => inf
  | ninf => ninf
  | num q => num ((jsRoundQ q : ℤ) : ℚ)

/-- `Math.pow(x, 3)`. -/
def pow3 (v : JSVal) : JSVal := mul v (mul v v)

/-- `Math.sqrt`, with the finite non-negative branch delegated to the
function parameter `s` (its true value is irrational in general). -/
def sqrtJ (s : ℚ → ℚ) : JSVal → JSVal
  | nan => nan
  | ninf => nan
  | inf => inf
  | num q => if q < 0 then nan else num (s q)

@[simp] theorem add_nan_left (v : JSVal) : add nan v = nan := by
  cases v <;> rfl

@[simp] theorem add_nan_right (v : JSVal) : add v nan = nan := by
  cases v <;> rfl

@[simp] theorem mul_nan_left (v : JSVal) : mul nan v = nan := by
  cases v <;> rfl

@[simp] theorem mul_nan_right (v : JSVal) : mul v nan = nan := by
  cases v <;> rfl

@[simp] theorem div_nan_left (v : JSVal) : div nan v = nan := by
  cases v <;> rfl

@[simp] theorem div_nan_right (v : JSVal) : div v nan = nan := by
  cases v <;> rfl

@[simp] theorem sub_nan_left (v : JSVal) : sub nan v = nan := by
  cases v <;> rfl

@[simp] theorem sub_nan_right (v : JSVal) : sub v nan = nan := by
  cases v <;> rfl

@[simp] theorem jsMin_nan_left (v : JSVal) : jsMin nan v = nan := by
  cases v <;> rfl

@[simp] theorem jsMin_nan_right (v : JSVal) : jsMin v nan = nan := by
  cases v <;> rfl

@[simp] theorem jsMax_nan_left (v : JSVal) : jsMax nan v = nan := by
  cases v <;> rfl

@[simp] theorem jsMax_nan_right (v : JSVal) : jsMax v nan = nan := by
  cases v <;> rfl

@[simp] theorem rnd_nan : rnd nan = nan := rfl

@[simp] theorem pow3_nan : pow3 nan = nan := rfl

@[simp] theorem sqrtJ_nan (s : ℚ → ℚ) : sqrtJ s nan = nan := rfl

@[simp] theorem add_num (a b : ℚ) : add (num a) (num b) = num (a + b) := rfl

@[simp] theorem sub_num (a b : ℚ) : sub (num a) (num b) = num (a - b) := by
  show num (a + -b) = num (a - b)
  rw [← sub_eq_add_neg]

@[simp] theorem mul_num (a b : ℚ) : mul (num a) (num b) = num (a * b) := rfl

theorem div_num_of_ne {a b : ℚ} (hb : b ≠ 0) :
    div (num a) (num b) = num (a / b) := by
  show (if b = 0 then _ else num (a / b)) = num (a / b)
  rw [if_neg hb]

@[simp] theorem div_num_zero_zero : div (num 0) (num 0) = nan := rfl

end JSVal

/-! ## Grid calculator (`calculatePointByPoint`, calculations/index.js 11-111)

The parameters object is flattened into a record; luminaire row/column
counts are natural numbers (the loops `for (let lr = 0; lr < rows; lr++)`
run `rows` times).  Grid point counts `Math.floor(length/spacing) + 1` are
integers that can be zero or negative for degenerate spacing, and the
`for` loops then run `max 0 ·` times, so they are kept as `ℤ` with `toNat`
at the loops.  A grid spacing of exactly `0` makes the JavaScript loop
bound `Infinity` and the program non-terminating; that input is outside
this (total) model and no claim is settled at it.  `Math.sqrt` on finite
values is the function parameter `s`. -/

structure PBPParams where
  roomLength : ℚ
  roomWidth : ℚ
  roomHeight : ℚ
  roomLengthFt : Bool
  roomWidthFt : Bool
  roomHeightFt : Bool
  workplaneHeight : ℚ
  workplaneHeightFt : Bool
  gridSpacing : ℚ
  lumRows : ℕ
  lumCols : ℕ
  suspensionHeight : ℚ
  flux : ℚ
  reflCeiling : ℚ
  reflWalls : ℚ
  reflFloor : ℚ

def lengthM (p : PBPParams) : ℚ := toMeters p.roomLength p.roomLengthFt

def widthM (p : PBPParams) : ℚ := toMeters p.roomWidth p.roomWidthFt

def heightM (p : PBPParams) : ℚ := toMeters p.roomHeight p.roomHeightFt

def workplaneHeightM (p : PBPParams) : ℚ :=
  toMeters p.workplaneHeight p.workplaneHeightFt

/-- `xPoints = Math.floor(lengthM / gridSpacingM) + 1`. -/
def xPointsZ (p : PBPParams) : ℤ := ⌊lengthM p / p.gridSpacing⌋ + 1

/-- `yPoints = Math.floor(widthM / gridSpacingM) + 1`. -/
def yPointsZ (p : PBPParams) : ℤ := ⌊widthM p / p.gridSpacing⌋ + 1

/-- `1 + (ceiling/100·0.4 + walls/100·0.4 + floor/100·0.2)`. -/
def reflectionFactor (p : PBPParams) : ℚ :=
  1 + (p.reflCeiling / 100 * 0.4 + p.reflWalls / 100 * 0.4 +
    p.reflFloor / 100 * 0.2)

/-- Illuminance contribution of luminaire `(lr, lc)` at the sample point
with coordinates `(xCoord, yCoord)`: inverse-square law with the
`flux/(4π) · cos³θ` fallback intensity model. -/
def pbpContrib (s : ℚ → ℚ) (p : PBPParams) (xCoord yCoord : JSVal)
    (lr lc : ℕ) : JSVal :=
  let lxPos : ℚ := ((lc : ℚ) + 0.5) * (lengthM p / (p.lumCols : ℚ))
  let lyPos : ℚ := ((lr : ℚ) + 0.5) * (widthM p / (p.lumRows : ℚ))
  let lzPos : ℚ := heightM p - p.suspensionHeight
  let dx := JSVal.sub xCoord (JSVal.num lxPos)
  let dy := JSVal.sub yCoord (JSVal.num lyPos)
  let dz : ℚ := lzPos - workplaneHeightM p
  let distance := JSVal.sqrtJ s
    (JSVal.add (JSVal.add (JSVal.mul dx dx) (JSVal.mul dy dy))
      (JSVal.mul (JSVal.num dz) (JSVal.num dz)))
  let cosTheta := JSVal.div (JSVal.num dz) distance
  let luminousIntensity : ℚ := p.flux / (4 * piJS)
  JSVal.div (JSVal.mul (JSVal.num luminousIntensity) (JSVal.pow3 cosTheta))
    (JSVal.mul distance distance)

/-- Normalized position `x / (xPoints - 1)` of the sample column `x`
(`0/0 = NaN` when the axis has a single point). -/
def xPosOf (p : PBPParams) (x : ℕ) : JSVal :=
  JSVal.div (JSVal.num (x : ℚ)) (JSVal.num ((xPointsZ p - 1 : ℤ) : ℚ))

def yPosOf (p : PBPParams) (y : ℕ) : JSVal :=
  JSVal.div (JSVal.num (y : ℚ)) (JSVal.num ((yPointsZ p - 1 : ℤ) : ℚ))

/-- Accumulated `pointIlluminance` at grid point `(x, y)`: the luminaire
double loop (`lr` outer, `lc` inner) summed from `0`. -/
def pbpPointRaw (s : ℚ → ℚ) (p : PBPParams) (x y : ℕ) : JSVal :=
  let xCoord := JSVal.mul (xPosOf p x) (JSVal.num (lengthM p))
  let yCoord := JSVal.mul (yPosOf p y) (JSVal.num (widthM p))
  ((List.range p.lumRows).flatMap (fun lr =>
      (List.range p.lumCols).map (fun lc =>
        pbpContrib s p xCoord yCoord lr lc))).foldl
    JSVal.add (JSVal.num 0)

/-- One grid cell: `Math.round(pointIlluminance * reflectionFactor)`.
No clamping of negative values is performed. -/
def pbpCell (s : ℚ → ℚ) (p : PBPParams) (x y : ℕ) : JSVal :=
  JSVal.rnd (JSVal.mul (pbpPointRaw s p x y) (JSVal.num (reflectionFactor p)))

/-- The illuminance grid: rows indexed by `y`, columns by `x`. -/
def pbpGrid (s : ℚ → ℚ) (p : PBPParams) : List (List JSVal) :=
  (List.range (yPointsZ p).toNat).map (fun y =>
    (List.range (xPointsZ p).toNat).map (fun x => pbpCell s p x y))

/-- Result record of `calculatePointByPoint` (grid, stats and min/avg
uniformity; the `dimensions` metadata carries no computation and is
omitted). -/
structure PBPResult where
  grid : List (List JSVal)
  average : JSVal
  min : JSVal
  max : JSVal
  uniformity : JSVal

/-- `calculatePointByPoint(params)`: fills the grid and tracks
`min`/`max`/`total` in cell order (modelled as folds over the row-major
cell list, which visits cells in exactly the loop order), then
`avg = Math.round(total / (xPoints*yPoints))` and `uniformity = min/avg`.
Note there is no validation of the grid spacing and no error path. -/
def calculatePointByPoint (s : ℚ → ℚ) (p : PBPParams) : PBPResult :=
  let grid := pbpGrid s p
  let cells := grid.flatten
  let minIlluminance := cells.foldl JSVal.jsMin (JSVal.num jsMaxValue)
  let maxIlluminance := cells.foldl JSVal.jsMax (JSVal.num 0)
  let totalIlluminance := cells.foldl JSVal.add (JSVal.num 0)
  let avgIlluminance := JSVal.rnd (JSVal.div totalIlluminance
    (JSVal.num ((xPointsZ p * yPointsZ p : ℤ) : ℚ)))
  let uniformity := JSVal.div minIlluminance avgIlluminance
  { grid := grid, average := avgIlluminance, min := minIlluminance,
    max := maxIlluminance, uniformity := uniformity }

/-! ## Uniformity metrics (`calculateUniformity`, uniformity.js 11-44, and
`calculateDiversity`, uniformity.js 168-170) -/

structure UniformityResult where
  min : JSVal
  max : JSVal
  avg : JSVal
  minToAvg : JSVal
  minToMax : JSVal

/-- `calculateUniformity(illuminanceGrid)`: scans all cells for
min/max/total (modelled as folds in the same cell order), computes
`avg = total / count` and the ratios `min/avg` and `min/max`, with no
guard on a zero average or zero maximum. -/
def calculateUniformity (illuminanceGrid : List (List JSVal)) : UniformityResult :=
  let cells := illuminanceGrid.flatten
  let minV := cells.foldl JSVal.jsMin (JSVal.num jsMaxValue)
  let maxV := cells.foldl JSVal.jsMax (JSVal.num 0)
  let total := cells.foldl JSVal.add (JSVal.num 0)
  let count : ℕ := cells.length
  let avg := JSVal.div total (JSVal.num (count : ℚ))
  { min := minV, max := maxV, avg := avg,
    minToAvg := JSVal.div minV avg, minToMax := JSVal.div minV maxV }

/-- `calculateDiversity(uniformityData) = max / min`. -/
def calculateDiversity (u : UniformityResult) : JSVal :=
  JSVal.div u.max u.min

/-! ## Claim C6 -/

theorem foldl_jsMin_allzero : ∀ (l : List JSVal),
    (∀ c ∈ l, c = JSVal.num 0) → ∀ (a : ℚ), l ≠ [] →
    l.foldl JSVal.jsMin (JSVal.num a) = JSVal.num (min a 0) := by
  intro l
  induction l with
  | nil => intro _ a h; simp at h
  | cons c t ih =>
    intro hz a _
    have hc : c = JSVal.num 0 := hz c (by simp)
    subst hc
    simp only [List.foldl_cons]
    by_cases ht : t = []
    · subst ht
      rfl
    · have hr := ih (fun d hd => hz d (by simp [hd])) (min a 0) ht
      rw [show JSVal.jsMin (JSVal.num a) (JSVal.num 0) = JSVal.num (min a 0) from rfl,
        hr, min_assoc, min_self]

theorem foldl_jsMax_allzero : ∀ (l : List JSVal),
    (∀ c ∈ l, c = JSVal.num 0) → ∀ (a : ℚ), l ≠ [] →
    l.foldl JSVal.jsMax (JSVal.num a) = JSVal.num (max a 0) := by
  intro l
  induction l with
  | nil => intro _ a h; simp at h
  | cons c t ih =>
    intro hz a _
    have hc : c = JSVal.num 0 := hz c (by simp)
    subst hc
    simp only [List.foldl_cons]
    by_cases ht : t = []
    · subst ht
      rfl
    · have hr := ih (fun d hd => hz d (by simp [hd])) (max a 0) ht
      rw [show JSVal.jsMax (JSVal.num a) (JSVal.num 0) = JSVal.num (max a 0) from rfl,
        hr, max_assoc, max_self]

theorem foldl_add_allzero : ∀ (l : List JSVal),
    (∀ c ∈ l, c = JSVal.num 0) → ∀ (a : ℚ),
    l.foldl JSVal.add (JSVal.num a) = JSVal.num a := by
  intro l
  induction l with
  | nil => intro _ a; rfl
  | cons c t ih =>
    intro hz a
    have hc : c = JSVal.num 0 := hz c (by simp)
    subst hc
    simp only [List.foldl_cons]
    rw [show JSVal.add (JSVal.num a) (JSVal.num 0) = JSVal.num a from by
        rw [JSVal.add_num, add_zero],
      ih (fun d hd => hz d (by simp [hd])) a]

/-- Shared evaluation: `calculateUniformity` on a non-empty all-zero grid
produces `min = max = avg = 0` and `NaN` for both ratios. -/
theorem uniformity_allzero (grid : List (List JSVal))
    (hne : grid.flatten ≠ [])
    (hz : ∀ c ∈ grid.flatten, c = JSVal.num 0) :
    calculateUniformity grid =
      ⟨JSVal.num 0, JSVal.num 0, JSVal.num 0, JSVal.nan, JSVal.nan⟩ := by
  unfold calculateUniformity
  have hmin := foldl_jsMin_allzero grid.flatten hz jsMaxValue hne
  have hmax := foldl_jsMax_allzero grid.flatten hz 0 hne
  have htot := foldl_add_allzero grid.flatten hz 0
  have hminv : min jsMaxValue 0 = 0 := min_eq_right (by norm_num [jsMaxValue])
  have hcount : ((grid.flatten.length : ℚ)) ≠ 0 := by
    have hl : grid.flatten.length ≠ 0 := fun h => hne (List.length_eq_zero.mp h)
    exact_mod_cast Nat.cast_ne_zero.mpr hl
  dsimp only
  rw [hmin, hmax, htot, hminv, max_self, JSVal.div_num_of_ne hcount, zero_div]
  rfl

/-- C6 counterexample: the claim requires a distinguished "undefined"
result (not NaN) when the average is zero, but `calculateUniformity` on
the all-zero 2×2 grid reports `min/avg = 0/0 = NaN`. -/
theorem C6_allzero_grid_gives_nan :
    (calculateUniformity
        [[JSVal.num 0, JSVal.num 0], [JSVal.num 0, JSVal.num 0]]).minToAvg =
      JSVal.nan := by
  rw [uniformity_allzero _ (by decide) (by decide)]

/-- C6 (amended): on any grid whose cells are all zero (and hence whose
average is zero), the metrics that divide by the average or by the
min/max are reported as JavaScript `NaN` — not as a distinguished
"undefined" result: `min/avg = NaN`, `min/max = NaN`, and the diversity
`max/min = NaN`. -/
theorem C6_zero_average_metrics_nan (grid : List (List JSVal))
    (hne : grid.flatten ≠ [])
    (hz : ∀ row ∈ grid, ∀ c ∈ row, c = JSVal.num 0) :
    (calculateUniformity grid).avg = JSVal.num 0 ∧
    (calculateUniformity grid).minToAvg = JSVal.nan ∧
    (calculateUniformity grid).minToMax = JSVal.nan ∧
    calculateDiversity (calculateUniformity grid) = JSVal.nan := by
  have hcz : ∀ c ∈ grid.flatten, c = JSVal.num 0 := by
    intro c hc
    obtain ⟨row, hrow, hcrow⟩ := List.mem_flatten.mp hc
    exact hz row hrow c hcrow
  rw [uniformity_allzero grid hne hcz]
  exact ⟨rfl, rfl, rfl, rfl⟩

/-- Witness for C6: the amended theorem applied to the concrete all-zero
1×3 grid. -/
theorem C6_zero_average_metrics_nan_witness :
    (calculateUniformity [[JSVal.num 0, JSVal.num 0, JSVal.num 0]]).minToAvg =
        JSVal.nan ∧
      calculateDiversity
        (calculateUniformity [[JSVal.num 0, JSVal.num 0, JSVal.num 0]]) =
        JSVal.nan :=
  ⟨(C6_zero_average_metrics_nan _ (by decide) (by decide)).2.1,
    (C6_zero_average_metrics_nan _ (by decide) (by decide)).2.2.2⟩

/-! ## Claim C7 -/

theorem getD_mem_of_lt_gen {α : Type} {l : List α} {d : α} {j : ℕ}
    (hj : j < l.length) : l.getD j d ∈ l := by
  rw [List.getD_eq_getElem l d hj]
  exact List.getElem_mem hj

theorem map_range_getD_zero {α : Type} (f : ℕ → α) {n : ℕ} (hn : 0 < n)
    (d : α) : (List.map f (List.range n)).getD 0 d = f 0 := by
  obtain ⟨m, rfl⟩ : ∃ m, n = m + 1 := ⟨n - 1, by omega⟩
  rw [List.range_succ_eq_map]
  rfl

theorem flatMap_nil_fun {α β : Type} (l : List α) :
    (l.flatMap fun _ => ([] : List β)) = [] := by
  induction l with
  | nil => rfl
  | cons a t ih => simp [ih]

/-- With an empty luminaire loop (zero rows or zero columns) a grid cell is
`Math.round(0 * reflectionFactor) = 0`. -/
theorem pbpCell_no_luminaires (s : ℚ → ℚ) (p : PBPParams) (x y : ℕ)
    (h : p.lumRows = 0 ∨ p.lumCols = 0) : pbpCell s p x y = JSVal.num 0 := by
  have hraw : pbpPointRaw s p x y = JSVal.num 0 := by
    unfold pbpPointRaw
    dsimp only
    rcases h with h | h <;> rw [h] <;> simp [flatMap_nil_fun]
  unfold pbpCell
  rw [hraw, JSVal.mul_num, zero_mul]
  show JSVal.num ((jsRoundQ 0 : ℤ) : ℚ) = JSVal.num 0
  have : jsRoundQ 0 = 0 := by
    unfold jsRoundQ
    rw [show (0 : ℚ) + 1 / 2 = 1 / 2 by norm_num]
    rw [Int.floor_eq_zero_iff.mpr (by constructor <;> norm_num)]
  rw [this]
  norm_num

/-- C7: `calculatePointByPoint` performs no validation whatsoever.  A
negative grid spacing is not rejected with an `InvalidParameter` error —
the point counts go non-positive, the loops do not run, and an *empty*
grid is silently returned as a result.  (Spacing exactly `0` makes the
JavaScript loop bound `Infinity`, a non-terminating loop, likewise not an
error.)  The half of the claim that does hold: with zero luminaire rows
or columns every cell of the returned grid is `0`, not an error. -/
theorem C7_no_spacing_validation (s : ℚ → ℚ) (p : PBPParams) :
    (p.gridSpacing < 0 → 0 < widthM p →
      (calculatePointByPoint s p).grid = []) ∧
    ((p.lumRows = 0 ∨ p.lumCols = 0) →
      ∀ row ∈ (calculatePointByPoint s p).grid, ∀ c ∈ row,
        c = JSVal.num 0) := by
  constructor
  · intro hneg hw
    have hq : widthM p / p.gridSpacing < 0 := div_neg_of_pos_of_neg hw hneg
    have hfl : ⌊widthM p / p.gridSpacing⌋ < 0 := by
      by_contra hge
      push_neg at hge
      exact absurd (Int.floor_nonneg.mp hge) (not_le.mpr hq)
    have hy : (yPointsZ p).toNat = 0 := by
      unfold yPointsZ
      omega
    show pbpGrid s p = []
    unfold pbpGrid
    rw [hy]
    rfl
  · intro h0 row hrow c hc
    have hrow' : row ∈ pbpGrid s p := hrow
    unfold pbpGrid at hrow'
    obtain ⟨y, _, rfl⟩ := List.mem_map.mp hrow'
    obtain ⟨x, _, rfl⟩ := List.mem_map.mp hc
    exact pbpCell_no_luminaires s p x y h0

/-- Negative grid spacing, everything else a perfectly ordinary request. -/
def c7Params : PBPParams :=
  { roomLength := 10, roomWidth := 8, roomHeight := 3,
    roomLengthFt := false, roomWidthFt := false, roomHeightFt := false,
    workplaneHeight := 0.8, workplaneHeightFt := false,
    gridSpacing := -1, lumRows := 3, lumCols := 3,
    suspensionHeight := 0, flux := 5000,
    reflCeiling := 70, reflWalls := 50, reflFloor := 20 }

/-- C7 counterexample: with grid spacing `-1` the calculator does not
reject the request with an `InvalidParameter` error — it has no error
path at all — and silently returns a result whose grid is empty. -/
theorem C7_negative_spacing_returns_result :
    (calculatePointByPoint ratSqrt c7Params).grid = [] := by
  show pbpGrid ratSqrt c7Params = []
  unfold pbpGrid
  have hy : (yPointsZ c7Params).toNat = 0 := by
    unfold yPointsZ widthM toMeters c7Params
    norm_num
  rw [hy]
  rfl

/-- Negative-spacing input for the witness. -/
def c7wParams : PBPParams :=
  { roomLength := 4, roomWidth := 5, roomHeight := 3,
    roomLengthFt := false, roomWidthFt := false, roomHeightFt := false,
    workplaneHeight := 0.8, workplaneHeightFt := false,
    gridSpacing := -2, lumRows := 2, lumCols := 2,
    suspensionHeight := 0.5, flux := 1000,
    reflCeiling := 10, reflWalls := 10, reflFloor := 10 }

/-- Zero-luminaire input for the witness. -/
def c7zParams : PBPParams :=
  { roomLength := 4, roomWidth := 5, roomHeight := 3,
    roomLengthFt := false, roomWidthFt := false, roomHeightFt := false,
    workplaneHeight := 0.8, workplaneHeightFt := false,
    gridSpacing := 1, lumRows := 0, lumCols := 2,
    suspensionHeight := 0.5, flux := 1000,
    reflCeiling := 10, reflWalls := 10, reflFloor := 10 }

/-- Witness for C7: negative spacing yields an empty grid (no error), and
with zero luminaire rows the first cell of the grid is `0`. -/
theorem C7_no_spacing_validation_witness :
    (calculatePointByPoint ratSqrt c7wParams).grid = [] ∧
    ((calculatePointByPoint ratSqrt c7zParams).grid.getD 0 []).getD 0
        JSVal.nan = JSVal.num 0 := by
  constructor
  · refine (C7_no_spacing_validation ratSqrt c7wParams).1 (by norm_num [c7wParams]) ?_
    unfold widthM toMeters c7wParams
    norm_num
  · have hb := (C7_no_spacing_validation ratSqrt c7zParams).2 (Or.inl rfl)
    have hglen : 0 < (calculatePointByPoint ratSqrt c7zParams).grid.length := by
      show 0 < (pbpGrid ratSqrt c7zParams).length
      unfold pbpGrid
      rw [List.length_map, List.length_range]
      have : yPointsZ c7zParams = 6 := by
        unfold yPointsZ widthM toMeters c7zParams
        norm_num
      rw [this]
      norm_num
    have hrowmem := getD_mem_of_lt_gen (d := ([] : List JSVal)) hglen
    have hrlen : 0 < ((calculatePointByPoint ratSqrt c7zParams).grid.getD 0 []).length := by
      show 0 < ((pbpGrid ratSqrt c7zParams).getD 0 []).length
      unfold pbpGrid
      have hy : 0 < (yPointsZ c7zParams).toNat := by
        have : yPointsZ c7zParams = 6 := by
          unfold yPointsZ widthM toMeters c7zParams
          norm_num
        rw [this]
        norm_num
      rw [map_range_getD_zero _ hy]
      rw [List.length_map, List.length_range]
      have : xPointsZ c7zParams = 5 := by
        unfold xPointsZ lengthM toMeters c7zParams
        norm_num
      rw [this]
      norm_num
    exact hb _ hrowmem _ (getD_mem_of_lt_gen hrlen)

/-! ## Claim C8 -/

/-- Luminaire x-position `(lc + 0.5) * (lengthM / columns)`. -/
def lxPosQ (p : PBPParams) (lc : ℕ) : ℚ :=
  ((lc : ℚ) + 0.5) * (lengthM p / (p.lumCols : ℚ))

/-- Luminaire y-position `(lr + 0.5) * (widthM / rows)`. -/
def lyPosQ (p : PBPParams) (lr : ℕ) : ℚ :=
  ((lr : ℚ) + 0.5) * (widthM p / (p.lumRows : ℚ))

/-- Vertical displacement `dz = (heightM − suspensionHeight) − workplaneHeightM`. -/
def dzQ (p : PBPParams) : ℚ := heightM p - p.suspensionHeight - workplaneHeightM p

/-- Argument of `Math.sqrt` in the distance computation at finite sample
coordinates `(xc, yc)`. -/
def distArgQ (p : PBPParams) (xc yc : ℚ) (lr lc : ℕ) : ℚ :=
  (xc - lxPosQ p lc) * (xc - lxPosQ p lc) +
    (yc - lyPosQ p lr) * (yc - lyPosQ p lr) + dzQ p * dzQ p

theorem sqrtJ_num_nonneg (s : ℚ → ℚ) {q : ℚ} (hq : 0 ≤ q) :
    JSVal.sqrtJ s (JSVal.num q) = JSVal.num (s q) := by
  show (if q < 0 then JSVal.nan else JSVal.num (s q)) = JSVal.num (s q)
  rw [if_neg (not_lt.mpr hq)]

theorem sum_sq_nonneg (a b c : ℚ) : 0 ≤ a * a + b * b + c * c :=
  add_nonneg (add_nonneg (mul_self_nonneg a) (mul_self_nonneg b))
    (mul_self_nonneg c)

/-- Evaluation of a luminaire contribution at finite sample coordinates
when the square root of the distance argument is non-zero. -/
theorem pbpContrib_num_eval (s : ℚ → ℚ) (p : PBPParams) (xc yc : ℚ)
    (lr lc : ℕ) (hs : s (distArgQ p xc yc lr lc) ≠ 0) :
    pbpContrib s p (JSVal.num xc) (JSVal.num yc) lr lc =
      JSVal.num (p.flux / (4 * piJS) *
        (dzQ p / s (distArgQ p xc yc lr lc) *
          (dzQ p / s (distArgQ p xc yc lr lc) *
            (dzQ p / s (distArgQ p xc yc lr lc)))) /
        (s (distArgQ p xc yc lr lc) * s (distArgQ p xc yc lr lc))) := by
  unfold distArgQ lxPosQ lyPosQ dzQ at hs ⊢
  unfold pbpContrib
  dsimp only
  rw [JSVal.sub_num, JSVal.sub_num, JSVal.mul_num, JSVal.mul_num,
    JSVal.mul_num, JSVal.add_num, JSVal.add_num,
    sqrtJ_num_nonneg s (sum_sq_nonneg _ _ _),
    JSVal.div_num_of_ne hs,
    show ∀ c : ℚ, JSVal.pow3 (JSVal.num c) = JSVal.num (c * (c * c)) from
      fun c => rfl,
    JSVal.mul_num, JSVal.mul_num, JSVal.div_num_of_ne (mul_ne_zero hs hs)]

/-- A luminaire contribution at finite coordinates is a non-negative
finite number when the luminaire plane is above the workplane, the flux
is non-negative and the square-root model is positive on positives. -/
theorem pbpContrib_num_nonneg (s : ℚ → ℚ) (p : PBPParams) (xc yc : ℚ)
    (lr lc : ℕ) (hdz : 0 < dzQ p) (hflux : 0 ≤ p.flux)
    (hsq : ∀ q : ℚ, 0 < q → 0 < s q) :
    ∃ q : ℚ, 0 ≤ q ∧
      pbpContrib s p (JSVal.num xc) (JSVal.num yc) lr lc = JSVal.num q := by
  have hargpos : 0 < distArgQ p xc yc lr lc := by
    unfold distArgQ
    have h1 := mul_self_nonneg (xc - lxPosQ p lc)
    have h2 := mul_self_nonneg (yc - lyPosQ p lr)
    nlinarith [mul_pos hdz hdz]
  have hspos := hsq _ hargpos
  refine ⟨_, ?_, pbpContrib_num_eval s p xc yc lr lc (ne_of_gt hspos)⟩
  have hpi : (0 : ℚ) < piJS := by norm_num [piJS]
  have hq1 : 0 ≤ p.flux / (4 * piJS) := div_nonneg hflux (by linarith)
  have hq2 : 0 < dzQ p / s (distArgQ p xc yc lr lc) := div_pos hdz hspos
  exact div_nonneg
    (mul_nonneg hq1 (le_of_lt (mul_pos hq2 (mul_pos hq2 hq2))))
    (le_of_lt (mul_pos hspos hspos))

theorem foldl_add_nonneg_nums : ∀ (l : List JSVal),
    (∀ c ∈ l, ∃ q : ℚ, 0 ≤ q ∧ c = JSVal.num q) → ∀ a : ℚ, 0 ≤ a →
    ∃ q : ℚ, 0 ≤ q ∧ l.foldl JSVal.add (JSVal.num a) = JSVal.num q := by
  intro l
  induction l with
  | nil => intro _ a ha; exact ⟨a, ha, rfl⟩
  | cons c t ih =>
    intro h a ha
    obtain ⟨qc, hqc, hceq⟩ := h c (by simp)
    subst hceq
    simp only [List.foldl_cons, JSVal.add_num]
    exact ih (fun d hd => h d (by simp [hd])) (a + qc) (by linarith)

/-- Boolean test: is this JavaScript value a negative number? -/
def JSVal.isNegative : JSVal → Bool
  | JSVal.num q => decide (q < 0)
  | JSVal.ninf => true
  | _ => false

/-- C8 (amended): no clamping of negative results exists — a cell is only
`Math.round(pointIlluminance * reflectionFactor)`.  Whenever the luminaire
plane lies strictly above the workplane (`dz > 0`), the flux and the
reflectances are non-negative, the grid spacing is positive and no larger
than either room extent (so that both axes have at least two sample
points), every cell of the returned grid is a non-negative integer. -/
theorem C8_cells_nonneg_integers (s : ℚ → ℚ) (p : PBPParams)
    (hsp : 0 < p.gridSpacing) (hspl : p.gridSpacing ≤ lengthM p)
    (hspw : p.gridSpacing ≤ widthM p)
    (hdz : 0 < dzQ p) (hflux : 0 ≤ p.flux)
    (hrc : 0 ≤ p.reflCeiling) (hrw : 0 ≤ p.reflWalls) (hrf : 0 ≤ p.reflFloor)
    (hsq : ∀ q : ℚ, 0 < q → 0 < s q) :
    ∀ row ∈ (calculatePointByPoint s p).grid, ∀ c ∈ row,
      ∃ n : ℕ, c = JSVal.num (n : ℚ) := by
  have hxfl : (1 : ℤ) ≤ ⌊lengthM p / p.gridSpacing⌋ := by
    rw [Int.le_floor]
    rw [show ((1 : ℤ) : ℚ) = 1 by norm_num]
    rw [le_div_iff₀ hsp]
    linarith
  have hyfl : (1 : ℤ) ≤ ⌊widthM p / p.gridSpacing⌋ := by
    rw [Int.le_floor]
    rw [show ((1 : ℤ) : ℚ) = 1 by norm_num]
    rw [le_div_iff₀ hsp]
    linarith
  have hxcast : ((xPointsZ p - 1 : ℤ) : ℚ) ≠ 0 := by
    apply Int.cast_ne_zero.mpr
    unfold xPointsZ
    omega
  have hycast : ((yPointsZ p - 1 : ℤ) : ℚ) ≠ 0 := by
    apply Int.cast_ne_zero.mpr
    unfold yPointsZ
    omega
  intro row hrow c hc
  have hrow' : row ∈ pbpGrid s p := hrow
  unfold pbpGrid at hrow'
  obtain ⟨y, _, rfl⟩ := List.mem_map.mp hrow'
  obtain ⟨x, _, rfl⟩ := List.mem_map.mp hc
  have hraw : ∃ q : ℚ, 0 ≤ q ∧ pbpPointRaw s p x y = JSVal.num q := by
    unfold pbpPointRaw xPosOf yPosOf
    dsimp only
    rw [JSVal.div_num_of_ne hxcast, JSVal.div_num_of_ne hycast,
      JSVal.mul_num, JSVal.mul_num]
    apply foldl_add_nonneg_nums _ ?_ 0 le_rfl
    intro cc hcc
    obtain ⟨lr, _, hcc'⟩ := List.mem_flatMap.mp hcc
    obtain ⟨lc, _, rfl⟩ := List.mem_map.mp hcc'
    exact pbpContrib_num_nonneg s p _ _ lr lc hdz hflux hsq
  obtain ⟨q, hq, hrweq⟩ := hraw
  have hfac : 0 ≤ reflectionFactor p := by
    unfold reflectionFactor
    have h1 : 0 ≤ p.reflCeiling / 100 * 0.4 :=
      mul_nonneg (div_nonneg hrc (by norm_num)) (by norm_num)
    have h2 : 0 ≤ p.reflWalls / 100 * 0.4 :=
      mul_nonneg (div_nonneg hrw (by norm_num)) (by norm_num)
    have h3 : 0 ≤ p.reflFloor / 100 * 0.2 :=
      mul_nonneg (div_nonneg hrf (by norm_num)) (by norm_num)
    linarith
  unfold pbpCell
  rw [hrweq, JSVal.mul_num]
  have hq' : 0 ≤ q * reflectionFactor p := mul_nonneg hq hfac
  have hnn : 0 ≤ jsRoundQ (q * reflectionFactor p) := by
    unfold jsRoundQ
    exact Int.floor_nonneg.mpr (by linarith)
  refine ⟨(jsRoundQ (q * reflectionFactor p)).toNat, ?_⟩
  show JSVal.num ((jsRoundQ (q * reflectionFactor p) : ℤ) : ℚ) = _
  congr 1
  exact_mod_cast (Int.toNat_of_nonneg hnn).symm

/-- Luminaire mounted *below* the workplane (suspension length equal to
the full room height, workplane at 0.8 m): `dz = 3 − 3 − 0.8 < 0`. -/
def c8Params : PBPParams :=
  { roomLength := 2, roomWidth := 2, roomHeight := 3,
    roomLengthFt := false, roomWidthFt := false, roomHeightFt := false,
    workplaneHeight := 0.8, workplaneHeightFt := false,
    gridSpacing := 1, lumRows := 1, lumCols := 1,
    suspensionHeight := 3, flux := 10000,
    reflCeiling := 0, reflWalls := 0, reflFloor := 0 }

theorem map_range_getD {α : Type} (f : ℕ → α) {n j : ℕ} (hj : j < n)
    (d : α) : (List.map f (List.range n)).getD j d = f j := by
  rw [List.getD_eq_getElem _ d (by simpa using hj)]
  simp

/-- C8 counterexample: the center cell of the grid for `c8Params` is the
*negative* integer `Math.round(−10000/(4π)/0.64) = −1243`: the code
rounds but never clamps negative illuminance to 0, contradicting the
claim that every returned cell is a non-negative integer. -/
theorem C8_negative_cell_counterexample :
    JSVal.isNegative
      (((calculatePointByPoint ratSqrt c8Params).grid.getD 1 []).getD 1
        JSVal.nan) = true := by
  have h1y : (1 : ℕ) < (yPointsZ c8Params).toNat := by
    unfold yPointsZ widthM toMeters c8Params
    norm_num
  have h1x : (1 : ℕ) < (xPointsZ c8Params).toNat := by
    unfold xPointsZ lengthM toMeters c8Params
    norm_num
  have hrow : (calculatePointByPoint ratSqrt c8Params).grid.getD 1 [] =
      (List.range (xPointsZ c8Params).toNat).map
        (fun x => pbpCell ratSqrt c8Params x 1) := by
    show (pbpGrid ratSqrt c8Params).getD 1 [] = _
    unfold pbpGrid
    exact map_range_getD _ h1y _
  rw [hrow, map_range_getD _ h1x _]
  have hdist : distArgQ c8Params (1 / 2 * 2) (1 / 2 * 2) 0 0 = 16 / 25 := by
    unfold distArgQ lxPosQ lyPosQ dzQ lengthM widthM heightM
      workplaneHeightM toMeters c8Params
    norm_num
  have hs64 : ratSqrt (distArgQ c8Params (1 / 2 * 2) (1 / 2 * 2) 0 0) = 4 / 5 := by
    rw [hdist, show (16 / 25 : ℚ) = (4 / 5) * (4 / 5) by norm_num]
    exact ratSqrt_sq (by norm_num)
  have hcontrib := pbpContrib_num_eval ratSqrt c8Params (1 / 2 * 2) (1 / 2 * 2)
    0 0 (by rw [hs64]; norm_num)
  rw [hs64] at hcontrib
  have hdz : dzQ c8Params = -4 / 5 := by
    unfold dzQ heightM workplaneHeightM toMeters c8Params
    norm_num
  rw [hdz] at hcontrib
  have hxpos : xPosOf c8Params 1 = JSVal.num (1 / 2) := by
    have h2 : ((xPointsZ c8Params - 1 : ℤ) : ℚ) = 2 := by
      unfold xPointsZ lengthM toMeters c8Params
      norm_num
    unfold xPosOf
    rw [h2, JSVal.div_num_of_ne (by norm_num)]
    norm_num
  have hypos : yPosOf c8Params 1 = JSVal.num (1 / 2) := by
    have h2 : ((yPointsZ c8Params - 1 : ℤ) : ℚ) = 2 := by
      unfold yPointsZ widthM toMeters c8Params
      norm_num
    unfold yPosOf
    rw [h2, JSVal.div_num_of_ne (by norm_num)]
    norm_num
  have hlen : lengthM c8Params = 2 := by
    unfold lengthM toMeters c8Params
    norm_num
  have hwid : widthM c8Params = 2 := by
    unfold widthM toMeters c8Params
    norm_num
  unfold pbpCell pbpPointRaw
  dsimp only
  rw [hxpos, hypos, hlen, hwid, JSVal.mul_num]
  show JSVal.isNegative (JSVal.rnd (JSVal.mul
    (JSVal.add (JSVal.num 0)
      (pbpContrib ratSqrt c8Params (JSVal.num (1 / 2 * 2))
        (JSVal.num (1 / 2 * 2)) 0 0))
    (JSVal.num (reflectionFactor c8Params)))) = true
  rw [hcontrib, JSVal.add_num]
  have hfac : reflectionFactor c8Params = 1 := by
    unfold reflectionFactor c8Params
    norm_num
  rw [hfac, JSVal.mul_num]
  have hneg : jsRoundQ ((0 + c8Params.flux / (4 * piJS) *
      (-4 / 5 / (4 / 5) * (-4 / 5 / (4 / 5) * (-4 / 5 / (4 / 5)))) /
      (4 / 5 * (4 / 5))) * 1) < 0 := by
    unfold jsRoundQ
    refine Int.floor_lt.mpr ?_
    push_cast
    norm_num [piJS, c8Params]
  show JSVal.isNegative (JSVal.num ((jsRoundQ _ : ℤ) : ℚ)) = true
  show decide (((jsRoundQ _ : ℤ) : ℚ) < 0) = true
  exact decide_eq_true (by exact_mod_cast hneg)

/-- Boolean test: is this JavaScript value a non-negative integer? -/
def JSVal.isNonnegInt : JSVal → Bool
  | JSVal.num q => decide (0 ≤ q ∧ q.den = 1)
  | _ => false

/-- Ordinary configuration with the luminaire plane above the workplane
(`dz = 3 − 1.5 − 0.8 = 0.7`). -/
def c8wParams : PBPParams :=
  { roomLength := 2, roomWidth := 2, roomHeight := 3,
    roomLengthFt := false, roomWidthFt := false, roomHeightFt := false,
    workplaneHeight := 0.8, workplaneHeightFt := false,
    gridSpacing := 1, lumRows := 1, lumCols := 1,
    suspensionHeight := 1.5, flux := 1000,
    reflCeiling := 50, reflWalls := 50, reflFloor := 20 }

/-- Witness for the amended C8: the first cell of the grid for
`c8wParams` is a non-negative integer. -/
theorem C8_cells_nonneg_integers_witness :
    JSVal.isNonnegInt
      (((calculatePointByPoint ratSqrt c8wParams).grid.getD 0 []).getD 0
        JSVal.nan) = true := by
  have hmain := C8_cells_nonneg_integers ratSqrt c8wParams
    (by norm_num [c8wParams])
    (by unfold lengthM toMeters c8wParams; norm_num)
    (by unfold widthM toMeters c8wParams; norm_num)
    (by unfold dzQ heightM workplaneHeightM toMeters c8wParams; norm_num)
    (by norm_num [c8wParams]) (by norm_num [c8wParams])
    (by norm_num [c8wParams]) (by norm_num [c8wParams])
    (fun q hq => ratSqrt_pos hq)
  have hglen : 0 < (calculatePointByPoint ratSqrt c8wParams).grid.length := by
    show 0 < (pbpGrid ratSqrt c8wParams).length
    unfold pbpGrid
    rw [List.length_map, List.length_range]
    unfold yPointsZ widthM toMeters c8wParams
    norm_num
  have hrlen : 0 <
      ((calculatePointByPoint ratSqrt c8wParams).grid.getD 0 []).length := by
    show 0 < ((pbpGrid ratSqrt c8wParams).getD 0 []).length
    unfold pbpGrid
    have hy : 0 < (yPointsZ c8wParams).toNat := by
      unfold yPointsZ widthM toMeters c8wParams
      norm_num
    rw [map_range_getD_zero _ hy, List.length_map, List.length_range]
    unfold xPointsZ lengthM toMeters c8wParams
    norm_num
  obtain ⟨n, hn⟩ := hmain _ (getD_mem_of_lt_gen hglen) _ (getD_mem_of_lt_gen hrlen)
  rw [hn]
  show decide (0 ≤ (n : ℚ) ∧ ((n : ℚ)).den = 1) = true
  exact decide_eq_true ⟨by positivity, Rat.den_natCast n⟩

/-! ## Claim C10 -/

theorem pbpContrib_nan_left (s : ℚ → ℚ) (p : PBPParams) (yCoord : JSVal)
    (lr lc : ℕ) : pbpContrib s p JSVal.nan yCoord lr lc = JSVal.nan := by
  unfold pbpContrib
  dsimp only
  simp

theorem pbpContrib_nan_right (s : ℚ → ℚ) (p : PBPParams) (xCoord : JSVal)
    (lr lc : ℕ) : pbpContrib s p xCoord JSVal.nan lr lc = JSVal.nan := by
  unfold pbpContrib
  dsimp only
  simp

theorem foldl_add_nan_init : ∀ l : List JSVal,
    l.foldl JSVal.add JSVal.nan = JSVal.nan := by
  intro l
  induction l with
  | nil => rfl
  | cons c t ih => simpa using ih

theorem foldl_jsMin_nan_init : ∀ l : List JSVal,
    l.foldl JSVal.jsMin JSVal.nan = JSVal.nan := by
  intro l
  induction l with
  | nil => rfl
  | cons c t ih => simpa using ih

theorem foldl_jsMax_nan_init : ∀ l : List JSVal,
    l.foldl JSVal.jsMax JSVal.nan = JSVal.nan := by
  intro l
  induction l with
  | nil => rfl
  | cons c t ih => simpa using ih

theorem foldl_add_all_nan (l : List JSVal) (hne : l ≠ [])
    (h : ∀ c ∈ l, c = JSVal.nan) (a : ℚ) :
    l.foldl JSVal.add (JSVal.num a) = JSVal.nan := by
  cases l with
  | nil => exact absurd rfl hne
  | cons c t =>
    have hc : c = JSVal.nan := h c (by simp)
    subst hc
    simp only [List.foldl_cons, JSVal.add_nan_right]
    exact foldl_add_nan_init t

theorem foldl_jsMin_all_nan (l : List JSVal) (hne : l ≠ [])
    (h : ∀ c ∈ l, c = JSVal.nan) (a : ℚ) :
    l.foldl JSVal.jsMin (JSVal.num a) = JSVal.nan := by
  cases l with
  | nil => exact absurd rfl hne
  | cons c t =>
    have hc : c = JSVal.nan := h c (by simp)
    subst hc
    simp only [List.foldl_cons, JSVal.jsMin_nan_right]
    exact foldl_jsMin_nan_init t

theorem foldl_jsMax_all_nan (l : List JSVal) (hne : l ≠ [])
    (h : ∀ c ∈ l, c = JSVal.nan) (a : ℚ) :
    l.foldl JSVal.jsMax (JSVal.num a) = JSVal.nan := by
  cases l with
  | nil => exact absurd rfl hne
  | cons c t =>
    have hc : c = JSVal.nan := h c (by simp)
    subst hc
    simp only [List.foldl_cons, JSVal.jsMax_nan_right]
    exact foldl_jsMax_nan_init t

/-- NaN sample coordinates poison the whole luminaire sum as soon as at
least one luminaire exists. -/
theorem pbpPointRaw_nan (s : ℚ → ℚ) (p : PBPParams) (x y : ℕ)
    (hx : xPosOf p x = JSVal.nan ∨ yPosOf p y = JSVal.nan)
    (hrows : 1 ≤ p.lumRows) (hcols : 1 ≤ p.lumCols) :
    pbpPointRaw s p x y = JSVal.nan := by
  unfold pbpPointRaw
  dsimp only
  rcases hx with hx | hx
  · rw [hx, JSVal.mul_nan_left]
    apply foldl_add_all_nan
    · apply List.ne_nil_of_mem
        (a := pbpContrib s p JSVal.nan
          (JSVal.mul (yPosOf p y) (JSVal.num (widthM p))) 0 0)
      exact List.mem_flatMap.mpr ⟨0, List.mem_range.mpr hrows,
        List.mem_map.mpr ⟨0, List.mem_range.mpr hcols, rfl⟩⟩
    · intro c hc
      obtain ⟨lr, _, hc'⟩ := List.mem_flatMap.mp hc
      obtain ⟨lc, _, rfl⟩ := List.mem_map.mp hc'
      exact pbpContrib_nan_left s p _ lr lc
  · rw [hx, JSVal.mul_nan_left]
    apply foldl_add_all_nan
    · apply List.ne_nil_of_mem
        (a := pbpContrib s p
          (JSVal.mul (xPosOf p x) (JSVal.num (lengthM p))) JSVal.nan 0 0)
      exact List.mem_flatMap.mpr ⟨0, List.mem_range.mpr hrows,
        List.mem_map.mpr ⟨0, List.mem_range.mpr hcols, rfl⟩⟩
    · intro c hc
      obtain ⟨lr, _, hc'⟩ := List.mem_flatMap.mp hc
      obtain ⟨lc, _, rfl⟩ := List.mem_map.mp hc'
      exact pbpContrib_nan_right s p _ lr lc

/-- C10 (amended): when the grid spacing exceeds the room length or the
room width — so that `Math.floor(extent/spacing) + 1 = 1` sample point
lies on that axis — and the layout contains at least one luminaire, the
normalized position is `0/0 = NaN`, every cell of the returned grid is
`NaN`, and so are the returned min, max, average and uniformity.  (With
zero luminaires the NaN coordinate is never consumed and the cells are
`0` instead, which is what the counterexample shows for the claim as
stated.) -/
theorem C10_oversized_spacing_all_nan (s : ℚ → ℚ) (p : PBPParams)
    (hsp : 0 < p.gridSpacing) (hlen : 0 < lengthM p) (hwid : 0 < widthM p)
    (hone : lengthM p < p.gridSpacing ∨ widthM p < p.gridSpacing)
    (hrows : 1 ≤ p.lumRows) (hcols : 1 ≤ p.lumCols) :
    (∀ row ∈ (calculatePointByPoint s p).grid, ∀ c ∈ row, c = JSVal.nan) ∧
    (calculatePointByPoint s p).min = JSVal.nan ∧
    (calculatePointByPoint s p).max = JSVal.nan ∧
    (calculatePointByPoint s p).average = JSVal.nan ∧
    (calculatePointByPoint s p).uniformity = JSVal.nan := by
  have hxpz : 1 ≤ xPointsZ p := by
    unfold xPointsZ
    have h0 : 0 ≤ ⌊lengthM p / p.gridSpacing⌋ :=
      Int.floor_nonneg.mpr (le_of_lt (div_pos hlen hsp))
    omega
  have hypz : 1 ≤ yPointsZ p := by
    unfold yPointsZ
    have h0 : 0 ≤ ⌊widthM p / p.gridSpacing⌋ :=
      Int.floor_nonneg.mpr (le_of_lt (div_pos hwid hsp))
    omega
  have hposnan : ∀ x y : ℕ, x < (xPointsZ p).toNat → y < (yPointsZ p).toNat →
      xPosOf p x = JSVal.nan ∨ yPosOf p y = JSVal.nan := by
    intro x y hxlt hylt
    rcases hone with hcase | hcase
    · left
      have hx1 : xPointsZ p = 1 := by
        unfold xPointsZ
        have h0 : (0 : ℚ) ≤ lengthM p / p.gridSpacing :=
          le_of_lt (div_pos hlen hsp)
        have h1 : lengthM p / p.gridSpacing < 1 := (div_lt_one hsp).mpr hcase
        have hfl : ⌊lengthM p / p.gridSpacing⌋ = 0 :=
          Int.floor_eq_zero_iff.mpr ⟨h0, h1⟩
        omega
      have hx0 : x = 0 := by
        rw [hx1] at hxlt
        omega
      subst hx0
      unfold xPosOf
      rw [hx1]
      norm_num
    · right
      have hy1 : yPointsZ p = 1 := by
        unfold yPointsZ
        have h0 : (0 : ℚ) ≤ widthM p / p.gridSpacing :=
          le_of_lt (div_pos hwid hsp)
        have h1 : widthM p / p.gridSpacing < 1 := (div_lt_one hsp).mpr hcase
        have hfl : ⌊widthM p / p.gridSpacing⌋ = 0 :=
          Int.floor_eq_zero_iff.mpr ⟨h0, h1⟩
        omega
      have hy0 : y = 0 := by
        rw [hy1] at hylt
        omega
      subst hy0
      unfold yPosOf
      rw [hy1]
      norm_num
  have hcell : ∀ x y : ℕ, x < (xPointsZ p).toNat → y < (yPointsZ p).toNat →
      pbpCell s p x y = JSVal.nan := by
    intro x y hxlt hylt
    unfold pbpCell
    rw [pbpPointRaw_nan s p x y (hposnan x y hxlt hylt) hrows hcols,
      JSVal.mul_nan_left, JSVal.rnd_nan]
  have hallcells : ∀ c ∈ (pbpGrid s p).flatten, c = JSVal.nan := by
    intro c hc
    obtain ⟨row, hrow, hcrow⟩ := List.mem_flatten.mp hc
    unfold pbpGrid at hrow
    obtain ⟨y, hy, rfl⟩ := List.mem_map.mp hrow
    obtain ⟨x, hx, rfl⟩ := List.mem_map.mp hcrow
    exact hcell x y (List.mem_range.mp hx) (List.mem_range.mp hy)
  have hne : (pbpGrid s p).flatten ≠ [] := by
    apply List.ne_nil_of_mem (a := pbpCell s p 0 0)
    apply List.mem_flatten.mpr
    refine ⟨(List.range (xPointsZ p).toNat).map (fun x => pbpCell s p x 0), ?_, ?_⟩
    · unfold pbpGrid
      exact List.mem_map.mpr ⟨0, List.mem_range.mpr (by omega), rfl⟩
    · exact List.mem_map.mpr ⟨0, List.mem_range.mpr (by omega), rfl⟩
  refine ⟨?_, ?_, ?_, ?_, ?_⟩
  · intro row hrow c hc
    have hrow' : row ∈ pbpGrid s p := hrow
    unfold pbpGrid at hrow'
    obtain ⟨y, hy, rfl⟩ := List.mem_map.mp hrow'
    obtain ⟨x, hx, rfl⟩ := List.mem_map.mp hc
    exact hcell x y (List.mem_range.mp hx) (List.mem_range.mp hy)
  · exact foldl_jsMin_all_nan _ hne hallcells _
  · exact foldl_jsMax_all_nan _ hne hallcells _
  · show JSVal.rnd (JSVal.div ((pbpGrid s p).flatten.foldl JSVal.add
      (JSVal.num 0)) _) = JSVal.nan
    rw [foldl_add_all_nan _ hne hallcells 0, JSVal.div_nan_left, JSVal.rnd_nan]
  · show JSVal.div ((pbpGrid s p).flatten.foldl JSVal.jsMin
      (JSVal.num jsMaxValue)) _ = JSVal.nan
    rw [foldl_jsMin_all_nan _ hne hallcells _, JSVal.div_nan_left]

/-- Oversized spacing but zero luminaires. -/
def c10Params : PBPParams :=
  { roomLength := 2, roomWidth := 2, roomHeight := 3,
    roomLengthFt := false, roomWidthFt := false, roomHeightFt := false,
    workplaneHeight := 0.8, workplaneHeightFt := false,
    gridSpacing := 5, lumRows := 0, lumCols := 0,
    suspensionHeight := 0.5, flux := 1000,
    reflCeiling := 0, reflWalls := 0, reflFloor := 0 }

/-- C10 counterexample: the claim as stated quantifies over *every* input
whose spacing exceeds a room extent, but with zero luminaires the NaN
coordinate is never consumed: the single grid cell is `0`, not NaN. -/
theorem C10_zero_luminaires_cell_is_zero :
    ((calculatePointByPoint ratSqrt c10Params).grid.getD 0 []).getD 0
      JSVal.nan = JSVal.num 0 := by
  have h0y : 0 < (yPointsZ c10Params).toNat := by
    unfold yPointsZ widthM toMeters c10Params
    norm_num
  have h0x : 0 < (xPointsZ c10Params).toNat := by
    unfold xPointsZ lengthM toMeters c10Params
    norm_num
  have hrow : (calculatePointByPoint ratSqrt c10Params).grid.getD 0 [] =
      (List.range (xPointsZ c10Params).toNat).map
        (fun x => pbpCell ratSqrt c10Params x 0) := by
    show (pbpGrid ratSqrt c10Params).getD 0 [] = _
    unfold pbpGrid
    exact map_range_getD _ h0y _
  rw [hrow, map_range_getD _ h0x _]
  exact pbpCell_no_luminaires ratSqrt c10Params 0 0 (Or.inl rfl)

/-- Oversized spacing with one luminaire. -/
def c10wParams : PBPParams :=
  { roomLength := 2, roomWidth := 2, roomHeight := 3,
    roomLengthFt := false, roomWidthFt := false, roomHeightFt := false,
    workplaneHeight := 0.8, workplaneHeightFt := false,
    gridSpacing := 5, lumRows := 1, lumCols := 1,
    suspensionHeight := 0.5, flux := 1000,
    reflCeiling := 0, reflWalls := 0, reflFloor := 0 }

/-- Witness for the amended C10: with spacing 5 on a 2×2 room and one
luminaire, the returned min and average are NaN. -/
theorem C10_oversized_spacing_all_nan_witness :
    (calculatePointByPoint ratSqrt c10wParams).min = JSVal.nan ∧
    (calculatePointByPoint ratSqrt c10wParams).average = JSVal.nan := by
  have h := C10_oversized_spacing_all_nan ratSqrt c10wParams
    (by norm_num [c10wParams])
    (by unfold lengthM toMeters c10wParams; norm_num)
    (by unfold widthM toMeters c10wParams; norm_num)
    (Or.inl (by unfold lengthM toMeters c10wParams; norm_num))
    (by norm_num [c10wParams]) (by norm_num [c10wParams])
  exact ⟨h.2.1, h.2.2.2.1⟩
